import Mathlib

/-!
Verification development for the versioned pet-store API
(`versioning_models.py`, `version_middleware.py`, `pet_models.py`,
`pet_shims.py`, `pet_routes.py`, `pet_repository.py`).

The Python source is shallowly embedded: classes become structures, methods
become functions, Python exceptions become `Option`/`Except`, and Python
dictionaries become association lists that preserve insertion order (as
Python dicts do).  All definitions are executable.
-/

/-! ### ApiVersion (`versioning_models.py`, class `ApiVersion`) -/

/-- Embedding of Python's `ApiVersion`: the two parsed integer components
plus the original version string (`self._version_str`), which `__str__`
returns verbatim. -/
structure ApiVersion where
  major : Nat
  minor : Nat
  vstr : String
deriving DecidableEq, Repr

/-- Splits a character list into its longest ASCII-digit prefix and the rest
(the behaviour of a greedy `\d+` in the regex; Python's `\d` also matches
non-ASCII decimal digits, a corner none of the claims touch). -/
def takeDigits (cs : List Char) : List Char × List Char :=
  (cs.takeWhile Char.isDigit, cs.dropWhile Char.isDigit)

/-- Scanner for the regex body `(\d+)\.(\d+)`: returns the two digit groups
and the unconsumed remainder, or `none` when the shape does not match. -/
def scanMajorMinor (cs : List Char) : Option (List Char × List Char × List Char) :=
  let (d1, r1) := takeDigits cs
  if d1.isEmpty then none
  else
    match r1 with
    | '.' :: r2 =>
      let (d2, r3) := takeDigits r2
      if d2.isEmpty then none else some (d1, d2, r3)
    | _ => none

/-- Numeric value of a digit string, as Python's `int`. -/
def natOfDigits (ds : List Char) : Nat :=
  ds.foldl (fun n c => 10 * n + (c.toNat - '0'.toNat)) 0

/-- Embedding of `re.compile(r'^(\d+)\.(\d+)$').match s`: the whole string
must be digits, a dot, digits; Python's `$` also accepts one trailing
newline. -/
def matchVersionPattern (s : String) : Option (List Char × List Char) :=
  match scanMajorMinor s.toList with
  | some (d1, d2, rest) =>
    if rest = [] ∨ rest = ['\n'] then some (d1, d2) else none
  | none => none

/-- Predicate used by the claims: the strict shape `digits '.' digits` with
nothing else (no trailing newline). -/
def strictVersionString (s : String) : Bool :=
  match scanMajorMinor s.toList with
  | some (_, _, rest) => rest.isEmpty
  | none => false

/-- Embedding of `ApiVersion.__init__`: raises `ValueError` (here `none`)
unless the pattern matches; stores the two parsed integers and the original
string. -/
def ApiVersion.parse (s : String) : Option ApiVersion :=
  match matchVersionPattern s with
  | some (d1, d2) => some ⟨natOfDigits d1, natOfDigits d2, s⟩
  | none => none

/-- Embedding of `ApiVersion.__str__`: returns the stored original string. -/
def ApiVersion.toString (v : ApiVersion) : String := v.vstr

/-- Embedding of `ApiVersion.__eq__`: structural equality of the numeric
components only (the stored string is ignored). -/
def ApiVersion.eqv (a b : ApiVersion) : Bool :=
  a.major == b.major && a.minor == b.minor

/-- Embedding of `ApiVersion.__lt__`: lexicographic on (major, minor). -/
def ApiVersion.pyLt (a b : ApiVersion) : Bool :=
  if a.major < b.major then true
  else if b.major < a.major then false
  else decide (a.minor < b.minor)

/-- The non-strict order Python's sort induces from `__lt__`:
`a` may precede `b` iff `not (b < a)`. -/
def ApiVersion.pyLe (a b : ApiVersion) : Prop :=
  ApiVersion.pyLt b a = false

instance : DecidableRel ApiVersion.pyLe :=
  fun a b => inferInstanceAs (Decidable (ApiVersion.pyLt b a = false))

instance : IsTotal ApiVersion ApiVersion.pyLe :=
  ⟨by
    intro a b
    simp only [ApiVersion.pyLe, ApiVersion.pyLt]
    by_cases h1 : a.major < b.major <;> by_cases h2 : b.major < a.major <;>
      simp [h1, h2] <;> omega⟩

instance : IsTrans ApiVersion ApiVersion.pyLe :=
  ⟨by
    intro a b c h1 h2
    simp only [ApiVersion.pyLe, ApiVersion.pyLt] at *
    split at h1 <;> split at h2 <;> split <;> simp_all <;> omega⟩

/-! ### VersionedEndpoint (`versioning_models.py`, class `VersionedEndpoint`) -/

/-- Embedding of `VersionedEndpoint`: a path and its list of supported
versions. -/
structure VersionedEndpoint where
  path : String
  supported_versions : List ApiVersion
deriving DecidableEq, Repr

/-- Embedding of `VersionedEndpoint.__init__`: stores
`sorted(supported_versions)` (Python's stable sort driven by `__lt__`,
which `List.insertionSort` with `pyLe` reproduces). -/
def VersionedEndpoint.make (path : String) (vs : List ApiVersion) : VersionedEndpoint :=
  ⟨path, List.insertionSort ApiVersion.pyLe vs⟩

/-- Embedding of `supports_version`: Python's `version in list`, which
compares with `__eq__`. -/
def VersionedEndpoint.supports_version (e : VersionedEndpoint) (v : ApiVersion) : Bool :=
  e.supported_versions.any (fun w => ApiVersion.eqv v w)

/-- Embedding of `get_latest_version`: the last element of the sorted list;
`none` models the `ValueError` raised on an empty list. -/
def VersionedEndpoint.get_latest_version (e : VersionedEndpoint) : Option ApiVersion :=
  e.supported_versions.getLast?

/-- Embedding of `get_version_chain`: raises (`none`) when the version is
unsupported; otherwise drops everything before the first `__eq__`-match of
`from_version` (Python's `list.index`). -/
def VersionedEndpoint.get_version_chain (e : VersionedEndpoint) (v : ApiVersion) :
    Option (List ApiVersion) :=
  if e.supports_version v then
    some (e.supported_versions.drop
      (e.supported_versions.findIdx (fun w => ApiVersion.eqv v w)))
  else none

/-! ### VersionRegistry (`versioning_models.py`, class `VersionRegistry`)

The Python class wraps a `dict` mutated in place; here the dict is an
association list (preserving Python's insertion order) and every mutating
method returns the updated registry. -/

/-- Embedding of `VersionRegistry`. -/
structure VersionRegistry where
  endpoints : List (String × VersionedEndpoint)
deriving DecidableEq, Repr

/-- The empty registry (`VersionRegistry.__init__`). -/
def VersionRegistry.empty : VersionRegistry := ⟨[]⟩

/-- Embedding of `get_endpoint`: dictionary lookup. -/
def VersionRegistry.get_endpoint (r : VersionRegistry) (path : String) :
    Option VersionedEndpoint :=
  (r.endpoints.find? (fun pe => pe.1 == path)).map Prod.snd

/-- Embedding of `register_endpoint`: if the path is known, append the
version to its list and re-sort (the source has no duplicate check);
otherwise insert a fresh `VersionedEndpoint` with that single version. -/
def VersionRegistry.register_endpoint (r : VersionRegistry) (path : String)
    (v : ApiVersion) : VersionRegistry :=
  if r.endpoints.any (fun pe => pe.1 == path) then
    ⟨r.endpoints.map (fun pe =>
      if pe.1 == path then
        (pe.1, ⟨pe.2.path, List.insertionSort ApiVersion.pyLe (pe.2.supported_versions ++ [v])⟩)
      else pe)⟩
  else
    ⟨r.endpoints ++ [(path, VersionedEndpoint.make path [v])]⟩

/-- Embedding of `get_supported_versions`: empty list when the path is
unknown. -/
def VersionRegistry.get_supported_versions (r : VersionRegistry) (path : String) :
    List ApiVersion :=
  match r.get_endpoint path with
  | none => []
  | some e => e.supported_versions

/-- Embedding of `VersionRegistry.supports_version`. -/
def VersionRegistry.supports_version (r : VersionRegistry) (path : String)
    (v : ApiVersion) : Bool :=
  match r.get_endpoint path with
  | none => false
  | some e => e.supports_version v

/-- A registry produced by a sequence of `register_endpoint` calls starting
from the empty registry (the only way the application builds one). -/
def VersionRegistry.registerAll (events : List (String × ApiVersion)) : VersionRegistry :=
  events.foldl (fun r pv => r.register_endpoint pv.1 pv.2) VersionRegistry.empty

/-! ### Version negotiation middleware (`version_middleware.py`) -/

/-- The constant `API_VERSION_HEADER`. -/
def API_VERSION_HEADER : String := "API-Version"

/-- An inbound HTTP request as the middleware sees it. -/
structure HttpRequest where
  method : String
  url_path : String
  headers : List (String × String)
deriving DecidableEq, Repr

/-- An HTTP response produced by the middleware. -/
structure HttpResponse where
  status_code : Nat
  body : String
  headers : List (String × String)
deriving DecidableEq, Repr

/-- ASCII lowercasing of a string (Starlette normalizes header names this
way). -/
def asciiLower (s : String) : String :=
  String.mk (s.toList.map Char.toLower)

/-- Starlette header lookup is case-insensitive. -/
def getHeader (hs : List (String × String)) (name : String) : Option String :=
  (hs.find? (fun h => asciiLower h.1 == asciiLower name)).map Prod.snd

/-- Outcome of `VersionNegotiationMiddleware.dispatch`: either the
middleware answers directly (the wrapped handler is never invoked; `state`
records whether `request.state.api_version` had already been written), or
the request proceeds to `call_next` carrying the parsed version in the
request's scoped state. -/
inductive NegotiationResult where
  | respond (resp : HttpResponse) (state : Option ApiVersion)
  | proceed (version : ApiVersion)
deriving DecidableEq, Repr

/-- Character class `[0-9a-f-]` of `_normalize_path`. -/
def isHexIdChar (c : Char) : Bool :=
  ('0' ≤ c && c ≤ '9') || ('a' ≤ c && c ≤ 'f') || c == '-'

/-- Embedding of `re.match(r'^[0-9a-f-]+$', seg)` viewed as a Boolean: one
or more characters of the class spanning the whole string (Python's `$`
also accepts one trailing newline). -/
def pyMatchCharClassFull (p : Char → Bool) (s : String) : Bool :=
  let cs := s.toList
  let ds := if cs.getLast? == some '\n' then cs.dropLast else cs
  !ds.isEmpty && ds.all p

/-- Splitting a character list on `/`, with Python's `str.split('/')`
semantics: empty segments are kept and the empty string yields one empty
segment. -/
def splitSegsAux : List Char → List (List Char)
  | [] => [[]]
  | c :: cs =>
    if c = '/' then [] :: splitSegsAux cs
    else
      match splitSegsAux cs with
      | s :: rest => (c :: s) :: rest
      | [] => [[c]]

/-- Python's `path.split('/')`. -/
def pySplitSlash (s : String) : List String :=
  (splitSegsAux s.toList).map String.mk

/-- Embedding of `VersionNegotiationMiddleware._normalize_path`: split on
`/`, replace every segment made only of hex digits and dashes by the
placeholder `{id}`, and re-join. -/
def normalize_path (path : String) : String :=
  String.intercalate "/" ((pySplitSlash path).map (fun seg =>
    if pyMatchCharClassFull isHexIdChar seg then "\x7bid\x7d" else seg))

/-- Embedding of `VersionNegotiationMiddleware.dispatch` up to the point
where the request either terminates in the middleware or proceeds to
`call_next`.  Mirrors the source order: HEAD probe; falsy-header check
(`if not version_header` treats a present-but-empty header like a missing
one); parse; write `request.state.api_version`; support check against the
normalized path. -/
def dispatch (reg : VersionRegistry) (req : HttpRequest) : NegotiationResult :=
  if req.method == "HEAD" then
    let path := normalize_path req.url_path
    let versions := reg.get_supported_versions path
    .respond
      { status_code := 200
        body := ""
        headers :=
          if versions.isEmpty then []
          else [(API_VERSION_HEADER,
            String.intercalate "," (versions.map ApiVersion.toString))] }
      none
  else
    match getHeader req.headers API_VERSION_HEADER with
    | none =>
      .respond ⟨400, "Missing required header: " ++ API_VERSION_HEADER, []⟩ none
    | some s =>
      if s == "" then
        .respond ⟨400, "Missing required header: " ++ API_VERSION_HEADER, []⟩ none
      else
        match ApiVersion.parse s with
        | none =>
          .respond
            ⟨400, "Invalid API-Version format: " ++ s ++ ". Expected format: major.minor", []⟩
            none
        | some v =>
          let path := normalize_path req.url_path
          if reg.supports_version path v then .proceed v
          else
            .respond
              ⟨406, "API version " ++ v.vstr ++
                " not supported for this endpoint. Supported versions: " ++
                String.intercalate ", "
                  ((reg.get_supported_versions path).map ApiVersion.toString), []⟩
              (some v)

/-! ### Structured payloads (`pet_models.py`)

Python payloads are embedded as a small value universe: JSON-style
dictionaries (insertion-ordered association lists, as Python dicts),
pydantic model instances (tagged with their class), strings, integers,
datetimes (an abstract integer timestamp measured in days), lists and
`None`. -/

/-- The pydantic model classes of `pet_models.py` that payloads can carry. -/
inductive ModelTag where
  | petCreateV1 | petCreateV2 | petCreateV3 | petCreateV3_1
  | petV1 | petV2 | petV3 | petV3_1
deriving DecidableEq, Repr

/-- Embedded Python value. -/
inductive Value where
  | vNull : Value
  | vStr : String → Value
  | vInt : Int → Value
  | vDatetime : Int → Value
  | vList : List Value → Value
  | vDict : List (String × Value) → Value
  | vModel : ModelTag → List (String × Value) → Value

/-- Python dict read: `d[k]` / `d.get(k)`. -/
def dictGet? (fs : List (String × Value)) (k : String) : Option Value :=
  (fs.find? (fun p => p.1 == k)).map Prod.snd

/-- Python `k in d`. -/
def dictMem (fs : List (String × Value)) (k : String) : Bool :=
  fs.any (fun p => p.1 == k)

/-- Python dict write `d[k] = v`: updates the first (only) occurrence in
place, otherwise appends, preserving insertion order. -/
def dictSet : List (String × Value) → String → Value → List (String × Value)
  | [], k, v => [(k, v)]
  | (k', v') :: rest, k, v =>
    if k' == k then (k', v) :: rest else (k', v') :: dictSet rest k v

/-- Python `del d[k]` (all claims apply it under a `k in d` guard, so the
missing-key `KeyError` never arises). -/
def dictDel (fs : List (String × Value)) (k : String) : List (String × Value) :=
  fs.filter (fun p => p.1 != k)

/-- Python truthiness of an embedded value (`if not response_data`). -/
def pyFalsy : Value → Bool
  | .vNull => true
  | .vStr s => s == ""
  | .vInt n => n == 0
  | .vDatetime _ => false
  | .vList xs => xs.isEmpty
  | .vDict fs => fs.isEmpty
  | .vModel _ _ => false

/-- Enum values of `PetSpeciesV1`. -/
def petSpeciesV1Values : List String := ["dog", "cat", "bird"]

/-- Enum values of `PetSpeciesV2`. -/
def petSpeciesV2Values : List String := ["dog", "cat", "bird", "fish", "reptile"]

/-- Enum values of `PetSpeciesV3`. -/
def petSpeciesV3Values : List String :=
  ["dog", "cat", "bird", "fish", "reptile", "rabbit", "hamster"]

/-- Enum values of `PetSizeV3`. -/
def petSizeV3Values : List String := ["small", "medium", "large"]

/-- Enum values of `PetHealthStatusV3_1`. -/
def petHealthStatusValues : List String := ["excellent", "good", "fair", "poor"]

/-- One pydantic field: name, validator (`none` = validation error) and
default (`none` = required field). -/
structure FieldSpec where
  name : String
  validate : Value → Option Value
  dflt : Option Value

/-- Validator for plain string fields (`name`, and `id`, whose UUID is
modelled as a string). -/
def validateStr : Value → Option Value
  | .vStr s => some (.vStr s)
  | _ => none

/-- Validator for a string-enum field. -/
def validateEnum (vals : List String) : Value → Option Value
  | .vStr s => if vals.contains s then some (.vStr s) else none
  | _ => none

/-- Validator for integer fields (`age`, `age_months`). -/
def validateInt : Value → Option Value
  | .vInt n => some (.vInt n)
  | _ => none

/-- Validator for `Optional[datetime]` fields (`birth_date`). -/
def validateOptDatetime : Value → Option Value
  | .vDatetime d => some (.vDatetime d)
  | .vNull => some .vNull
  | _ => none

/-- Test for a string value (the element check of a `List[str]` field). -/
def isStrValue : Value → Bool
  | .vStr _ => true
  | _ => false

/-- Validator for `List[str]` fields (`tags`). -/
def validateTags : Value → Option Value
  | .vList xs => if xs.all isStrValue then some (.vList xs) else none
  | _ => none

/-- Resolution of one declared field during model construction: a present
input is validated, an absent one falls back to the declared default;
`none` is a validation failure. -/
def resolveField (fields : List (String × Value)) (fs : FieldSpec) :
    Option (String × Value) :=
  match dictGet? fields fs.name with
  | some v => (fs.validate v).map (fun v' => (fs.name, v'))
  | none => fs.dflt.map (fun d => (fs.name, d))

/-- Pydantic-style model construction `Model(**fields)`: each declared
field is taken from the inputs and validated, or replaced by its default;
a missing required field or a failed validation raises (`.error`); extra
input keys are ignored (pydantic's default `extra='ignore'`). -/
def buildModel (tag : ModelTag) (specs : List FieldSpec)
    (fields : List (String × Value)) : Except String Value :=
  match specs.mapM (resolveField fields) with
  | some outFields => .ok (.vModel tag outFields)
  | none => .error "ValidationError"

/-- Field declarations of `PetCreateV1`. -/
def petCreateV1Spec : List FieldSpec :=
  [⟨"name", validateStr, none⟩,
   ⟨"species", validateEnum petSpeciesV1Values, none⟩,
   ⟨"age", validateInt, none⟩]

/-- Field declarations of `PetCreateV2`. -/
def petCreateV2Spec : List FieldSpec :=
  [⟨"name", validateStr, none⟩,
   ⟨"species", validateEnum petSpeciesV2Values, none⟩,
   ⟨"age", validateInt, none⟩,
   ⟨"birth_date", validateOptDatetime, some .vNull⟩]

/-- Field declarations of `PetCreateV3`. -/
def petCreateV3Spec : List FieldSpec :=
  [⟨"name", validateStr, none⟩,
   ⟨"species", validateEnum petSpeciesV3Values, none⟩,
   ⟨"age_months", validateInt, none⟩,
   ⟨"birth_date", validateOptDatetime, some .vNull⟩,
   ⟨"size", validateEnum petSizeV3Values, some (.vStr "medium")⟩,
   ⟨"tags", validateTags, some (.vList [])⟩]

/-- Field declarations of `PetCreateV3_1`. -/
def petCreateV3_1Spec : List FieldSpec :=
  petCreateV3Spec ++ [⟨"health_status", validateEnum petHealthStatusValues, some (.vStr "good")⟩]

/-- Field declarations of `PetV1` (the response models add `id`). -/
def petV1Spec : List FieldSpec := ⟨"id", validateStr, none⟩ :: petCreateV1Spec

/-- Field declarations of `PetV2`. -/
def petV2Spec : List FieldSpec := ⟨"id", validateStr, none⟩ :: petCreateV2Spec

/-- Field declarations of `PetV3`. -/
def petV3Spec : List FieldSpec := ⟨"id", validateStr, none⟩ :: petCreateV3Spec

/-- Field declarations of `PetV3_1`. -/
def petV3_1Spec : List FieldSpec := ⟨"id", validateStr, none⟩ :: petCreateV3_1Spec

/-- Constructor `PetCreateV1(**fields)`. -/
def mkPetCreateV1 (fields : List (String × Value)) : Except String Value :=
  buildModel .petCreateV1 petCreateV1Spec fields

/-- Constructor `PetCreateV2(**fields)`. -/
def mkPetCreateV2 (fields : List (String × Value)) : Except String Value :=
  buildModel .petCreateV2 petCreateV2Spec fields

/-- Constructor `PetCreateV3(**fields)`. -/
def mkPetCreateV3 (fields : List (String × Value)) : Except String Value :=
  buildModel .petCreateV3 petCreateV3Spec fields

/-- Constructor `PetCreateV3_1(**fields)`. -/
def mkPetCreateV3_1 (fields : List (String × Value)) : Except String Value :=
  buildModel .petCreateV3_1 petCreateV3_1Spec fields

/-- Constructor `PetV1(**fields)`. -/
def mkPetV1 (fields : List (String × Value)) : Except String Value :=
  buildModel .petV1 petV1Spec fields

/-- Constructor `PetV2(**fields)`. -/
def mkPetV2 (fields : List (String × Value)) : Except String Value :=
  buildModel .petV2 petV2Spec fields

/-- Constructor `PetV3(**fields)`. -/
def mkPetV3 (fields : List (String × Value)) : Except String Value :=
  buildModel .petV3 petV3Spec fields

/-- Constructor `PetV3_1(**fields)`. -/
def mkPetV3_1 (fields : List (String × Value)) : Except String Value :=
  buildModel .petV3_1 petV3_1Spec fields

/-- Python's `model.model_dump()`: the field dictionary of a model
instance; on any other value it raises `AttributeError` (`.error`). -/
def model_dump : Value → Except String (List (String × Value))
  | .vModel _ fs => .ok fs
  | _ => .error "AttributeError: model_dump"

/-! ### Pet shims (`pet_shims.py`)

Each shim is embedded as a function from the payload it receives to
`Except String Value` (`.error` models an uncaught Python exception).
Where the source mutates its argument through an alias, a companion
`..._input_after` function gives the state of the caller's object after the
call, traced from the aliasing in the source. -/

/-- Embedding of `shim_pet_request_v1_to_v2`.  The source takes a
`datetime.now()`; it is passed here explicitly as `now` (days).  The body
is deep-copied first, so the caller's dictionary is never touched. -/
def shim_pet_request_v1_to_v2 (now : Int) (rd : Value) : Except String Value :=
  match rd with
  | .vDict fs =>
    match dictGet? fs "body" with
    | some (.vDict body) => do
      let body1 ←
        match dictGet? body "age" with
        | some (.vInt n) =>
          .ok (dictSet body "birth_date" (.vDatetime (now - n * 365)))
        | some _ => .error "TypeError: bad operand for timedelta"
        | none => .ok body
      let body2 :=
        match dictGet? body1 "species" with
        | some (.vStr s) =>
          if petSpeciesV2Values.contains s then body1
          else dictSet body1 "species" (.vStr "dog")
        | some _ => dictSet body1 "species" (.vStr "dog")
        | none => body1
      .ok (.vDict (dictSet fs "body" (.vDict body2)))
    | _ => .ok rd
  | _ => .error "TypeError: argument is not a dict"

/-- State of the caller's dictionary after `shim_pet_request_v1_to_v2`:
unchanged, because the source starts with `copy.deepcopy(request_data)` and
only writes into the copy. -/
def shim_pet_request_v1_to_v2_input_after (_now : Int) (rd : Value) : Value := rd

/-- Embedding of `shim_pet_request_v2_to_v3`.  The source aliases its input
(`data = request_data`, no copy), dumps the `PetCreateV2` body, converts
years to months, fills v3 defaults and writes a `PetCreateV3` back into the
same dictionary. -/
def shim_pet_request_v2_to_v3 (rd : Value) : Except String Value :=
  match rd with
  | .vDict fs =>
    match dictGet? fs "body" with
    | some (.vModel .petCreateV2 mfields) => do
      let body0 := mfields
      let body1 ←
        match dictGet? body0 "age" with
        | some (.vInt n) =>
          .ok (dictDel (dictSet body0 "age_months" (.vInt (n * 12))) "age")
        | some _ => .error "TypeError: bad operand for multiplication"
        | none => .ok body0
      let body2 := if dictMem body1 "size" then body1
        else dictSet body1 "size" (.vStr "medium")
      let body3 := if dictMem body2 "tags" then body2
        else dictSet body2 "tags" (.vList [])
      let body4 :=
        match dictGet? body3 "species" with
        | some (.vStr s) =>
          if petSpeciesV3Values.contains s then body3
          else dictSet body3 "species" (.vStr "dog")
        | some _ => dictSet body3 "species" (.vStr "dog")
        | none => body3
      let m ← mkPetCreateV3 body4
      .ok (.vDict (dictSet fs "body" m))
    | _ => .ok rd
  | _ => .error "TypeError: argument is not a dict"

/-- State of the caller's dictionary after `shim_pet_request_v2_to_v3`:
because `data` aliases `request_data`, the write `data['body'] = ...` lands
in the caller's object, so on success the input now equals the output; when
the guard does not fire the function returns the input unchanged; an
exception is raised before the write, leaving the input unchanged. -/
def shim_pet_request_v2_to_v3_input_after (rd : Value) : Value :=
  match shim_pet_request_v2_to_v3 rd with
  | .ok out => out
  | .error _ => rd

/-- Embedding of `shim_pet_request_v3_to_v3_1`: same aliasing pattern;
dumps a `PetCreateV3` body, defaults `health_status` and writes a
`PetCreateV3_1` back into the same dictionary. -/
def shim_pet_request_v3_to_v3_1 (rd : Value) : Except String Value :=
  match rd with
  | .vDict fs =>
    match dictGet? fs "body" with
    | some (.vModel .petCreateV3 mfields) => do
      let body1 := if dictMem mfields "health_status" then mfields
        else dictSet mfields "health_status" (.vStr "good")
      let m ← mkPetCreateV3_1 body1
      .ok (.vDict (dictSet fs "body" m))
    | _ => .ok rd
  | _ => .error "TypeError: argument is not a dict"

/-- State of the caller's dictionary after `shim_pet_request_v3_to_v3_1`
(same aliasing argument as for the v2-to-v3 shim). -/
def shim_pet_request_v3_to_v3_1_input_after (rd : Value) : Value :=
  match shim_pet_request_v3_to_v3_1 rd with
  | .ok out => out
  | .error _ => rd

/-- Body of `shim_pet_response_v2_to_v1` for a non-falsy, non-list value:
dump, drop `birth_date`, coerce the species into v1, rebuild as `PetV1`. -/
def shim_pet_response_v2_to_v1_core (r : Value) : Except String Value := do
  let body0 ← model_dump r
  let body1 := if dictMem body0 "birth_date" then dictDel body0 "birth_date" else body0
  let body2 :=
    match dictGet? body1 "species" with
    | some (.vStr s) =>
      if petSpeciesV1Values.contains s then body1
      else dictSet body1 "species" (.vStr "dog")
    | some _ => dictSet body1 "species" (.vStr "dog")
    | none => body1
  mkPetV1 body2

mutual
/-- Embedding of `shim_pet_response_v2_to_v1`: falsy payloads pass through,
lists are mapped recursively, anything else goes through the core. -/
def shim_pet_response_v2_to_v1 : Value → Except String Value
  | .vList xs =>
    if pyFalsy (.vList xs) then .ok (.vList xs)
    else (shim_pet_response_v2_to_v1_list xs).map Value.vList
  | r =>
    if pyFalsy r then .ok r
    else shim_pet_response_v2_to_v1_core r
termination_by v => sizeOf v

/-- Recursive list mapping inside `shim_pet_response_v2_to_v1`. -/
def shim_pet_response_v2_to_v1_list : List Value → Except String (List Value)
  | [] => .ok []
  | x :: xs => do
    let y ← shim_pet_response_v2_to_v1 x
    let ys ← shim_pet_response_v2_to_v1_list xs
    .ok (y :: ys)
termination_by xs => sizeOf xs
end

/-- Body of `shim_pet_response_v3_to_v2` for a non-falsy, non-list value:
dump, convert months back to years with floor division, drop `size` and
`tags`, coerce the species into v2, rebuild as `PetV2`. -/
def shim_pet_response_v3_to_v2_core (r : Value) : Except String Value := do
  let body0 ← model_dump r
  let body1 ←
    match dictGet? body0 "age_months" with
    | some (.vInt n) =>
      .ok (dictDel (dictSet body0 "age" (.vInt (n.fdiv 12))) "age_months")
    | some _ => .error "TypeError: bad operand for floor division"
    | none => .ok body0
  let body2 := if dictMem body1 "size" then dictDel body1 "size" else body1
  let body3 := if dictMem body2 "tags" then dictDel body2 "tags" else body2
  let body4 :=
    match dictGet? body3 "species" with
    | some (.vStr s) =>
      if petSpeciesV2Values.contains s then body3
      else dictSet body3 "species" (.vStr "dog")
    | some _ => dictSet body3 "species" (.vStr "dog")
    | none => body3
  mkPetV2 body4

mutual
/-- Embedding of `shim_pet_response_v3_to_v2`: falsy payloads pass through,
lists are mapped recursively, anything else goes through the core. -/
def shim_pet_response_v3_to_v2 : Value → Except String Value
  | .vList xs =>
    if pyFalsy (.vList xs) then .ok (.vList xs)
    else (shim_pet_response_v3_to_v2_list xs).map Value.vList
  | r =>
    if pyFalsy r then .ok r
    else shim_pet_response_v3_to_v2_core r
termination_by v => sizeOf v

/-- Recursive list mapping inside `shim_pet_response_v3_to_v2`. -/
def shim_pet_response_v3_to_v2_list : List Value → Except String (List Value)
  | [] => .ok []
  | x :: xs => do
    let y ← shim_pet_response_v3_to_v2 x
    let ys ← shim_pet_response_v3_to_v2_list xs
    .ok (y :: ys)
termination_by xs => sizeOf xs
end

/-- Body of `shim_pet_response_v3_1_to_v3` for a non-falsy, non-list value:
dump, drop `health_status`, rebuild as `PetV3`. -/
def shim_pet_response_v3_1_to_v3_core (r : Value) : Except String Value := do
  let body0 ← model_dump r
  let body1 := if dictMem body0 "health_status" then dictDel body0 "health_status" else body0
  mkPetV3 body1

mutual
/-- Embedding of `shim_pet_response_v3_1_to_v3`: falsy payloads pass through,
lists are mapped recursively, anything else goes through the core. -/
def shim_pet_response_v3_1_to_v3 : Value → Except String Value
  | .vList xs =>
    if pyFalsy (.vList xs) then .ok (.vList xs)
    else (shim_pet_response_v3_1_to_v3_list xs).map Value.vList
  | r =>
    if pyFalsy r then .ok r
    else shim_pet_response_v3_1_to_v3_core r
termination_by v => sizeOf v

/-- Recursive list mapping inside `shim_pet_response_v3_1_to_v3`. -/
def shim_pet_response_v3_1_to_v3_list : List Value → Except String (List Value)
  | [] => .ok []
  | x :: xs => do
    let y ← shim_pet_response_v3_1_to_v3 x
    let ys ← shim_pet_response_v3_1_to_v3_list xs
    .ok (y :: ys)
termination_by xs => sizeOf xs
end

/-! ### ShimRegistry (`versioning_models.py`, class `ShimRegistry`) -/

/-- Embedding of `ShimRegistry`: two lookup tables keyed by
`(path, from_version, to_version)`.  Registrations are prepended and
lookups take the first match, giving Python's last-write-wins dict
semantics; keys compare with `==` — exact string equality on the path and
`ApiVersion.__eq__` on the versions. -/
structure ShimRegistry where
  request_shims : List ((String × ApiVersion × ApiVersion) × (Value → Except String Value))
  response_shims : List ((String × ApiVersion × ApiVersion) × (Value → Except String Value))

/-- The empty shim registry (`ShimRegistry.__init__`). -/
def ShimRegistry.empty : ShimRegistry := ⟨[], []⟩

/-- Embedding of `register_request_shim`. -/
def ShimRegistry.register_request_shim (r : ShimRegistry) (path : String)
    (a b : ApiVersion) (f : Value → Except String Value) : ShimRegistry :=
  ⟨((path, a, b), f) :: r.request_shims, r.response_shims⟩

/-- Embedding of `register_response_shim`. -/
def ShimRegistry.register_response_shim (r : ShimRegistry) (path : String)
    (a b : ApiVersion) (f : Value → Except String Value) : ShimRegistry :=
  ⟨r.request_shims, ((path, a, b), f) :: r.response_shims⟩

/-- Embedding of `get_request_shim`. -/
def ShimRegistry.get_request_shim (r : ShimRegistry) (path : String)
    (a b : ApiVersion) : Option (Value → Except String Value) :=
  (r.request_shims.find? (fun e =>
    e.1.1 == path && ApiVersion.eqv e.1.2.1 a && ApiVersion.eqv e.1.2.2 b)).map Prod.snd

/-- Embedding of `get_response_shim`. -/
def ShimRegistry.get_response_shim (r : ShimRegistry) (path : String)
    (a b : ApiVersion) : Option (Value → Except String Value) :=
  (r.response_shims.find? (fun e =>
    e.1.1 == path && ApiVersion.eqv e.1.2.1 a && ApiVersion.eqv e.1.2.2 b)).map Prod.snd

/-- The version literals the application constructs (`ApiVersion("1.0")`
and so on). -/
def apiVersion10 : ApiVersion := ⟨1, 0, "1.0"⟩

/-- Version literal `2.0`. -/
def apiVersion20 : ApiVersion := ⟨2, 0, "2.0"⟩

/-- Version literal `3.0`. -/
def apiVersion30 : ApiVersion := ⟨3, 0, "3.0"⟩

/-- Version literal `3.1`. -/
def apiVersion31 : ApiVersion := ⟨3, 1, "3.1"⟩

/-- Embedding of `register_pet_shims` (`pet_shims.py`): the twelve
registrations, in source order, against `/pets` and `/pets/{id}`. -/
def register_pet_shims (now : Int) (r : ShimRegistry) : ShimRegistry :=
  let petsPath := "/pets"
  let petDetailPath := "/pets/\x7bid\x7d"
  (((((((((((r.register_request_shim petsPath apiVersion10 apiVersion20 (shim_pet_request_v1_to_v2 now)
    ).register_request_shim petsPath apiVersion20 apiVersion30 shim_pet_request_v2_to_v3
    ).register_request_shim petsPath apiVersion30 apiVersion31 shim_pet_request_v3_to_v3_1
    ).register_request_shim petDetailPath apiVersion10 apiVersion20 (shim_pet_request_v1_to_v2 now)
    ).register_request_shim petDetailPath apiVersion20 apiVersion30 shim_pet_request_v2_to_v3
    ).register_request_shim petDetailPath apiVersion30 apiVersion31 shim_pet_request_v3_to_v3_1
    ).register_response_shim petsPath apiVersion20 apiVersion10 shim_pet_response_v2_to_v1
    ).register_response_shim petsPath apiVersion30 apiVersion20 shim_pet_response_v3_to_v2
    ).register_response_shim petsPath apiVersion31 apiVersion30 shim_pet_response_v3_1_to_v3
    ).register_response_shim petDetailPath apiVersion20 apiVersion10 shim_pet_response_v2_to_v1
    ).register_response_shim petDetailPath apiVersion30 apiVersion20 shim_pet_response_v3_to_v2
    ).register_response_shim petDetailPath apiVersion31 apiVersion30 shim_pet_response_v3_1_to_v3

/-- The application's shim registry after module import of `pet_routes.py`
(which calls `register_pet_shims()` on the empty singleton). -/
def appShimRegistry (now : Int) : ShimRegistry :=
  register_pet_shims now ShimRegistry.empty

/-! ### The versioned dispatcher
(`version_middleware.py`, `VersionedAPIRouter.equip_endpoint_with_shims`) -/

/-- The request object as the wrapper sees it: the raw URL path,
`request.state.api_version` (written earlier by the middleware, if at all)
and the JSON request body `await request.json()`. -/
structure DispatchRequest where
  url_path : String
  state_api_version : Option ApiVersion
  json_body : Value

/-- Adjacent pairs `(chain[i], chain[i+1])` — the forward hops of the
version chain. -/
def adjacentPairs : List ApiVersion → List (ApiVersion × ApiVersion)
  | a :: b :: rest => (a, b) :: adjacentPairs (b :: rest)
  | _ => []

/-- Runs a sequence of shim hops: for each hop the shim is looked up
(counted as a lookup) and, when present, applied (counted as an
application); a missing shim passes the payload through unchanged.  Returns
the final payload with the two instrumentation counters. -/
def runShimHops (lookup : ApiVersion → ApiVersion → Option (Value → Except String Value)) :
    List (ApiVersion × ApiVersion) → Value → Except String (Value × Nat × Nat)
  | [], x => .ok (x, 0, 0)
  | (a, b) :: rest, x =>
    match lookup a b with
    | some f => do
      let y ← f x
      let (z, l, c) ← runShimHops lookup rest y
      .ok (z, l + 1, c + 1)
    | none => do
      let (z, l, c) ← runShimHops lookup rest x
      .ok (z, l + 1, c)

/-- Embedding of the `wrapper` produced by `equip_endpoint_with_shims`,
for the case the handler's arguments are its keyword arguments `kwargs`
(a Python dict, here a `Value`).  Mirrors the source order: no request
object or no endpoint for the raw (un-normalized) path → call the handler
untouched; resolve the requested version from the request state, falling
back to the latest; short-circuit when it equals the latest; otherwise
inject the JSON body, walk the request shims forward, call the handler and
walk the response shims backward.  The result carries the shim
lookup/application counters of `runShimHops`; `.error` models an uncaught
exception (HTTP 500). -/
def dispatchWrapper (vreg : VersionRegistry) (sreg : ShimRegistry)
    (handler : Value → Except String Value) (req? : Option DispatchRequest)
    (kwargs : Value) : Except String (Value × Nat × Nat) :=
  match req? with
  | none => do
    let r ← handler kwargs
    .ok (r, 0, 0)
  | some req =>
    match vreg.get_endpoint req.url_path with
    | none => do
      let r ← handler kwargs
      .ok (r, 0, 0)
    | some endpoint =>
      match endpoint.get_latest_version with
      | none => .error "ValueError: no versions defined for endpoint"
      | some latest =>
        let requested := req.state_api_version.getD latest
        if ApiVersion.eqv requested latest then do
          let r ← handler kwargs
          .ok (r, 0, 0)
        else
          let kwargs1 :=
            match kwargs with
            | .vDict fs =>
              if dictMem fs "body" then Value.vDict fs
              else Value.vDict (dictSet fs "body" req.json_body)
            | other => other
          match endpoint.get_version_chain requested with
          | none => .error "ValueError: version not supported for endpoint"
          | some chain => do
            let hops := adjacentPairs chain
            let (kwargs2, l1, c1) ←
              runShimHops (sreg.get_request_shim req.url_path) hops kwargs1
            let result ← handler kwargs2
            let (result2, l2, c2) ←
              runShimHops (sreg.get_response_shim req.url_path)
                ((hops.map (fun p => (p.2, p.1))).reverse) result
            .ok (result2, l1 + l2, c1 + c2)

/-- The `register_endpoint` calls `pet_routes.py` performs at import time,
in source order: one call per version per `versioned_*` decorator (so
`/pets` is registered by both the GET and the POST route, and
`/pets/{pet_id}` by GET, PUT and DELETE). -/
def appRegistrationEvents : List (String × ApiVersion) :=
  [("/pets", apiVersion10), ("/pets", apiVersion20),
   ("/pets", apiVersion30), ("/pets", apiVersion31),
   ("/pets/\x7bpet_id\x7d", apiVersion10), ("/pets/\x7bpet_id\x7d", apiVersion20),
   ("/pets/\x7bpet_id\x7d", apiVersion30), ("/pets/\x7bpet_id\x7d", apiVersion31),
   ("/pets", apiVersion10), ("/pets", apiVersion20),
   ("/pets", apiVersion30), ("/pets", apiVersion31),
   ("/pets/\x7bpet_id\x7d", apiVersion10), ("/pets/\x7bpet_id\x7d", apiVersion20),
   ("/pets/\x7bpet_id\x7d", apiVersion30), ("/pets/\x7bpet_id\x7d", apiVersion31),
   ("/pets/\x7bpet_id\x7d", apiVersion10), ("/pets/\x7bpet_id\x7d", apiVersion20),
   ("/pets/\x7bpet_id\x7d", apiVersion30), ("/pets/\x7bpet_id\x7d", apiVersion31),
   ("/shelters", apiVersion30), ("/shelters", apiVersion31),
   ("/shelters/\x7bshelter_id\x7d", apiVersion30), ("/shelters/\x7bshelter_id\x7d", apiVersion31)]

/-- The application's version registry after `pet_routes.py` is imported. -/
def appRegistry : VersionRegistry :=
  VersionRegistry.registerAll appRegistrationEvents

/-! ### The shim round trip for the `/pets` endpoint (claim C3) -/

/-- The `/pets` endpoint as registered by `register_pet_shims` /
the `versioned_*` decorators: versions 1.0, 2.0, 3.0, 3.1. -/
def petsEndpoint : VersionedEndpoint :=
  VersionedEndpoint.make "/pets" [apiVersion10, apiVersion20, apiVersion30, apiVersion31]

/-- The handler-side echo between the two shim chains, mirroring
`InMemoryPetRepository.create_pet`: the latest-version store builds
`PetV3_1(id=pet_id, **pet_data.dict())` from the forward-shimmed body and
returns it. -/
def handlerEcho (petId : String) (body : Value) : Except String Value := do
  let fs ← model_dump body
  mkPetV3_1 (("id", .vStr petId) :: fs)

/-- The full forward request-shim chain from version `v` up to the latest,
exactly as the dispatcher drives it: kwargs `{body: payload}` pushed
through the `/pets` request shims along `get_version_chain v`. -/
def petForwardChain (now : Int) (v : ApiVersion) (payload : Value) :
    Except String (Value × Nat × Nat) :=
  match petsEndpoint.get_version_chain v with
  | none => .error "ValueError: version not supported for endpoint"
  | some chain =>
    runShimHops ((appShimRegistry now).get_request_shim "/pets") (adjacentPairs chain)
      (.vDict [("body", payload)])

/-- The round trip of claim C3: forward request-shim chain from `v` to the
latest, the latest-version handler echo, then the backward response-shim
chain from the latest back down to `v`. -/
def petRoundTrip (now : Int) (petId : String) (v : ApiVersion) (payload : Value) :
    Except String Value :=
  match petsEndpoint.get_version_chain v with
  | none => .error "ValueError: version not supported for endpoint"
  | some chain => do
    let hops := adjacentPairs chain
    let (kwargs2, _, _) ←
      runShimHops ((appShimRegistry now).get_request_shim "/pets") hops
        (.vDict [("body", payload)])
    let body ←
      match kwargs2 with
      | .vDict fs =>
        match dictGet? fs "body" with
        | some b => Except.ok b
        | none => Except.error "KeyError: body"
      | _ => Except.error "TypeError: kwargs is not a dict"
    let echoed ← handlerEcho petId body
    let (result, _, _) ←
      runShimHops ((appShimRegistry now).get_response_shim "/pets")
        ((hops.map (fun p => (p.2, p.1))).reverse) echoed
    .ok result

/-- Discriminator used to separate payload values: the model class of the
`body` entry of a kwargs dictionary, when there is one. -/
def bodyModelTag : Value → Option ModelTag
  | .vDict fs =>
    match dictGet? fs "body" with
    | some (.vModel t _) => some t
    | _ => none
  | _ => none

/-- The spec's scenario payload for an API v1 create request:
`{name: "Fluffy", species: "dog", age: 3}`, as the JSON dict the dispatcher
injects under `body`. -/
def petV1PayloadExample : Value :=
  .vDict [("name", .vStr "Fluffy"), ("species", .vStr "dog"), ("age", .vInt 3)]

/-- A `PetCreateV2` model instance carrying the same pet (age three years,
no birth date). -/
def petV2ModelExample : Value :=
  .vModel .petCreateV2
    [("name", .vStr "Fluffy"), ("species", .vStr "dog"),
     ("age", .vInt 3), ("birth_date", .vNull)]

/-- Kwargs dictionary holding the `PetCreateV2` example under `body` (what
the dispatcher hands to the v2-to-v3 request shim). -/
def petKwargsV2Example : Value := .vDict [("body", petV2ModelExample)]

theorem ApiVersion.pyLe_refl (a : ApiVersion) : ApiVersion.pyLe a a := by
  simp [ApiVersion.pyLe, ApiVersion.pyLt]

theorem ApiVersion.eqv_symm {a b : ApiVersion} (h : ApiVersion.eqv a b = true) :
    ApiVersion.eqv b a = true := by
  simp only [ApiVersion.eqv, Bool.and_eq_true, beq_iff_eq] at *
  omega

theorem ApiVersion.pyLe_of_eqv {a b : ApiVersion} (h : ApiVersion.eqv a b = true) :
    ApiVersion.pyLe a b := by
  simp only [ApiVersion.eqv, Bool.and_eq_true, beq_iff_eq] at h
  simp only [ApiVersion.pyLe, ApiVersion.pyLt]
  split <;> simp_all <;> omega

theorem ApiVersion.eqv_of_pyLe_pyLe {a b : ApiVersion}
    (h1 : ApiVersion.pyLe a b) (h2 : ApiVersion.pyLe b a) : ApiVersion.eqv a b = true := by
  simp only [ApiVersion.pyLe, ApiVersion.pyLt] at *
  simp only [ApiVersion.eqv, Bool.and_eq_true, beq_iff_eq]
  split at h1 <;> split at h2 <;> simp_all <;> omega

theorem ApiVersion.pyLe_congr_left {a b c : ApiVersion}
    (he : ApiVersion.eqv a b = true) (h : ApiVersion.pyLe b c) : ApiVersion.pyLe a c := by
  simp only [ApiVersion.eqv, Bool.and_eq_true, beq_iff_eq] at he
  simp only [ApiVersion.pyLe, ApiVersion.pyLt] at *
  split at h <;> split <;> simp_all <;> omega

theorem ApiVersion.pyLe_congr_right {a b c : ApiVersion}
    (he : ApiVersion.eqv b c = true) (h : ApiVersion.pyLe a b) : ApiVersion.pyLe a c := by
  simp only [ApiVersion.eqv, Bool.and_eq_true, beq_iff_eq] at he
  simp only [ApiVersion.pyLe, ApiVersion.pyLt] at *
  split at h <;> split <;> simp_all <;> omega

/-! ### Helper lemmas about sorted version lists -/

theorem mem_of_getLast?_eq_some {α : Type} : ∀ {l : List α} {m : α},
    l.getLast? = some m → m ∈ l
  | [], _, h => by simp at h
  | [x], m, h => by
    simp [List.getLast?] at h
    simp [h]
  | x :: y :: t, m, h => by
    rw [List.getLast?_cons_cons] at h
    exact List.mem_cons_of_mem x (mem_of_getLast?_eq_some h)

theorem sorted_getLast_max : ∀ {l : List ApiVersion},
    List.Pairwise ApiVersion.pyLe l → ∀ {m : ApiVersion}, l.getLast? = some m →
    ∀ w ∈ l, ApiVersion.pyLe w m
  | [], _, _, hm => by simp at hm
  | [x], _, m, hm => by
    have hmx : x = m := by simpa [List.getLast?] using hm
    intro w hw
    have hwx : w = x := by simpa using hw
    rw [hwx, ← hmx]
    exact ApiVersion.pyLe_refl x
  | x :: y :: t, hs, m, hm => by
    rw [List.getLast?_cons_cons] at hm
    intro w hw
    rcases List.mem_cons.mp hw with hwx | hwt
    · subst hwx
      exact (List.pairwise_cons.mp hs).1 m (mem_of_getLast?_eq_some hm)
    · exact sorted_getLast_max (List.pairwise_cons.mp hs).2 hm w hwt

/-- Core of `get_version_chain`'s specification: dropping a sorted list at
the first `__eq__`-match of `v` yields a suffix that starts at (a value
equal to) `v`, ends where the whole list ends, and contains exactly the
members that are at least `v`. -/
theorem sorted_chain_spec : ∀ (l : List ApiVersion),
    List.Pairwise ApiVersion.pyLe l →
    ∀ v : ApiVersion, l.any (fun w => ApiVersion.eqv v w) = true →
    (∃ w, (l.drop (l.findIdx (fun w => ApiVersion.eqv v w))).head? = some w ∧
      ApiVersion.eqv v w = true)
    ∧ (l.drop (l.findIdx (fun w => ApiVersion.eqv v w))).getLast? = l.getLast?
    ∧ (∀ u, u ∈ l.drop (l.findIdx (fun w => ApiVersion.eqv v w)) ↔
        (u ∈ l ∧ ApiVersion.pyLe v u))
    ∧ ∃ pre, pre ++ l.drop (l.findIdx (fun w => ApiVersion.eqv v w)) = l
  | [], _, v, hv => by simp at hv
  | x :: t, hs, v, hv => by
    by_cases hx : ApiVersion.eqv v x = true
    · rw [List.findIdx_cons (fun w => ApiVersion.eqv v w) x t]
      simp only [hx, cond_true, List.drop_zero]
      refine ⟨⟨x, rfl, hx⟩, by simp, ?_, ⟨[], rfl⟩⟩
      intro u
      constructor
      · intro hu
        refine ⟨hu, ?_⟩
        rcases List.mem_cons.mp hu with hux | hut
        · subst hux
          exact ApiVersion.pyLe_of_eqv hx
        · exact ApiVersion.pyLe_congr_left hx ((List.pairwise_cons.mp hs).1 u hut)
      · exact fun h => h.1
    · rw [List.findIdx_cons (fun w => ApiVersion.eqv v w) x t]
      simp only [hx, cond_false, List.drop_succ_cons]
      have hvt : t.any (fun w => ApiVersion.eqv v w) = true := by
        simp only [List.any_cons, hx, Bool.false_or] at hv
        exact hv
      obtain ⟨hhead, hlast, hmem, pre, hpre⟩ :=
        sorted_chain_spec t (List.pairwise_cons.mp hs).2 v hvt
      obtain ⟨u0, hu0t, hu0⟩ := List.any_eq_true.mp hvt
      have hxv : ApiVersion.pyLe x v :=
        ApiVersion.pyLe_congr_right (ApiVersion.eqv_symm hu0)
          ((List.pairwise_cons.mp hs).1 u0 hu0t)
      have hnvx : ¬ ApiVersion.pyLe v x := fun hvx =>
        hx (ApiVersion.eqv_of_pyLe_pyLe hvx hxv)
      refine ⟨hhead, ?_, ?_, ⟨x :: pre, by simp [hpre]⟩⟩
      · cases t with
        | nil => simp at hvt
        | cons y t' => rw [List.getLast?_cons_cons]; exact hlast
      · intro u
        constructor
        · intro hu
          obtain ⟨hut, hle⟩ := (hmem u).mp hu
          exact ⟨List.mem_cons_of_mem x hut, hle⟩
        · intro ⟨hu, hle⟩
          rcases List.mem_cons.mp hu with hux | hut
          · subst hux
            exact absurd hle hnvx
          · exact (hmem u).mpr ⟨hut, hle⟩

/-- Claim C2: for every `VersionedEndpoint` and every member version `v`,
`get_version_chain v` is the contiguous ascending tail of the sorted
supported-version sequence that starts at `v` and ends at the maximum
registered version; for a non-member it raises.  Includes the concrete
instance registered with 1.0, 2.0, 3.0, 3.1: the chain from 2.0 is
[2.0, 3.0, 3.1] and the chain from 1.0 ends at the latest version. -/
theorem claim_C2 (path : String) (vs : List ApiVersion) (v : ApiVersion) :
    ((VersionedEndpoint.make path vs).supports_version v = true →
      ∃ c, (VersionedEndpoint.make path vs).get_version_chain v = some c ∧
        (∃ w, c.head? = some w ∧ ApiVersion.eqv v w = true) ∧
        c.getLast? = (VersionedEndpoint.make path vs).get_latest_version ∧
        (∀ m, (VersionedEndpoint.make path vs).get_latest_version = some m →
          ∀ u ∈ (VersionedEndpoint.make path vs).supported_versions, ApiVersion.pyLe u m) ∧
        (∀ u, u ∈ c ↔
          (u ∈ (VersionedEndpoint.make path vs).supported_versions ∧ ApiVersion.pyLe v u)) ∧
        (∃ pre, pre ++ c = (VersionedEndpoint.make path vs).supported_versions))
    ∧ ((VersionedEndpoint.make path vs).supports_version v = false →
        (VersionedEndpoint.make path vs).get_version_chain v = none)
    ∧ (VersionedEndpoint.make "/x" [apiVersion10, apiVersion20, apiVersion30, apiVersion31]
        ).get_version_chain apiVersion20 = some [apiVersion20, apiVersion30, apiVersion31]
    ∧ ((VersionedEndpoint.make "/x" [apiVersion10, apiVersion20, apiVersion30, apiVersion31]
        ).get_version_chain apiVersion10).bind List.getLast?
        = (VersionedEndpoint.make "/x" [apiVersion10, apiVersion20, apiVersion30, apiVersion31]
          ).get_latest_version := by
  have hsorted : List.Pairwise ApiVersion.pyLe
      (VersionedEndpoint.make path vs).supported_versions :=
    List.sorted_insertionSort ApiVersion.pyLe vs
  refine ⟨?_, ?_, by decide, by decide⟩
  · intro hsup
    obtain ⟨hhead, hlast, hmem, hpre⟩ :=
      sorted_chain_spec (VersionedEndpoint.make path vs).supported_versions hsorted v hsup
    refine ⟨_, ?_, hhead, hlast, ?_, hmem, hpre⟩
    · unfold VersionedEndpoint.get_version_chain
      rw [if_pos hsup]
    · intro m hm
      exact sorted_getLast_max hsorted hm
  · intro hnsup
    unfold VersionedEndpoint.get_version_chain
    rw [if_neg (by simp [hnsup])]

/-- Witness for claim C2 at the concrete endpoint of the claim. -/
theorem claim_C2_witness :
    ∃ c, (VersionedEndpoint.make "/x" [apiVersion10, apiVersion20, apiVersion30, apiVersion31]
      ).get_version_chain apiVersion20 = some c ∧
      (∃ w, c.head? = some w ∧ ApiVersion.eqv apiVersion20 w = true) := by
  obtain ⟨c, hc, hh, _⟩ :=
    (claim_C2 "/x" [apiVersion10, apiVersion20, apiVersion30, apiVersion31] apiVersion20).1
      (by decide)
  exact ⟨c, hc, hh⟩

/-! ### Helper lemmas about the version registry -/

theorem find?_map_keyPreserving
    (f : (String × VersionedEndpoint) → (String × VersionedEndpoint))
    (hf : ∀ e, (f e).1 = e.1) (path : String) :
    ∀ l : List (String × VersionedEndpoint),
      (l.map f).find? (fun pe => pe.1 == path) =
        ((l.find? (fun pe => pe.1 == path)).map f)
  | [] => rfl
  | e :: t => by
    simp only [List.map_cons, List.find?_cons]
    rw [hf e]
    cases h : (e.1 == path) with
    | true => simp
    | false => simpa using find?_map_keyPreserving f hf path t

/-- Effect of one `register_endpoint` call on `get_supported_versions`:
up to reordering, the call appends the registered version to the queried
path's list exactly when the paths coincide. -/
theorem supported_register_perm (r : VersionRegistry) (p : String) (v : ApiVersion)
    (q : String) :
    ((r.register_endpoint p v).get_supported_versions q).Perm
      (r.get_supported_versions q ++ (if p == q then [v] else [])) := by
  unfold VersionRegistry.register_endpoint
  by_cases hany : r.endpoints.any (fun pe => pe.1 == p) = true
  · rw [if_pos hany]
    unfold VersionRegistry.get_supported_versions VersionRegistry.get_endpoint
    simp only
    rw [find?_map_keyPreserving _ (fun e => by split <;> rfl) q]
    cases hfind : r.endpoints.find? (fun pe => pe.1 == q) with
    | none =>
      have hpq : (p == q) = false := by
        cases h' : (p == q) with
        | false => rfl
        | true =>
          obtain ⟨e, he, hep⟩ := List.any_eq_true.mp hany
          have h1 : p = q := beq_iff_eq.mp h'
          subst h1
          exact absurd hep (by simpa using List.find?_eq_none.mp hfind e he)
      simp [hpq]
    | some e =>
      have heq : (e.1 == q) = true := by
        have h0 := List.find?_some hfind
        simpa using h0
      simp only [Option.map_some']
      by_cases hpq : (p == q) = true
      · have h1 : p = q := beq_iff_eq.mp hpq
        subst h1
        rw [if_pos heq]
        simp only [hpq]
        exact (List.perm_insertionSort ApiVersion.pyLe _)
      · have hep : (e.1 == p) = false := by
          cases h' : (e.1 == p) with
          | false => rfl
          | true =>
            exact absurd
              (beq_iff_eq.mpr ((beq_iff_eq.mp h').symm.trans (beq_iff_eq.mp heq))) hpq
        rw [if_neg (by simp [hep])]
        have hpq' : (p == q) = false := by simpa using hpq
        simp [hpq']
  · rw [if_neg hany]
    unfold VersionRegistry.get_supported_versions VersionRegistry.get_endpoint
    simp only [List.find?_append]
    by_cases hpq : (p == q) = true
    · have h1 : p = q := beq_iff_eq.mp hpq
      subst h1
      have hfind : r.endpoints.find? (fun pe => pe.1 == p) = none := by
        rw [List.find?_eq_none]
        intro x hx hc
        exact hany (List.any_eq_true.mpr ⟨x, hx, hc⟩)
      rw [hfind]
      simp [hpq, VersionedEndpoint.make, List.insertionSort]
    · have hpq' : (p == q) = false := by simpa using hpq
      simp only [hpq']
      cases hfind : r.endpoints.find? (fun pe => pe.1 == q) with
      | none =>
        simp [Option.or, hpq']
      | some e =>
        simp [Option.or]

/-- Effect of one `register_endpoint` call on sortedness: every
supported-version list stays sorted. -/
theorem supported_register_sorted (r : VersionRegistry) (p : String) (v : ApiVersion)
    (h : ∀ q, List.Pairwise ApiVersion.pyLe (r.get_supported_versions q)) (q : String) :
    List.Pairwise ApiVersion.pyLe
      ((r.register_endpoint p v).get_supported_versions q) := by
  unfold VersionRegistry.register_endpoint
  by_cases hany : r.endpoints.any (fun pe => pe.1 == p) = true
  · rw [if_pos hany]
    unfold VersionRegistry.get_supported_versions VersionRegistry.get_endpoint
    simp only
    rw [find?_map_keyPreserving _ (fun e => by split <;> rfl) q]
    cases hfind : r.endpoints.find? (fun pe => pe.1 == q) with
    | none => simp
    | some e =>
      simp only [Option.map_some']
      by_cases hep : (e.1 == p) = true
      · rw [if_pos hep]
        exact List.sorted_insertionSort ApiVersion.pyLe _
      · rw [if_neg hep]
        have hq := h q
        unfold VersionRegistry.get_supported_versions VersionRegistry.get_endpoint at hq
        rw [hfind] at hq
        exact hq
  · rw [if_neg hany]
    unfold VersionRegistry.get_supported_versions VersionRegistry.get_endpoint
    simp only [List.find?_append]
    cases hfind : r.endpoints.find? (fun pe => pe.1 == q) with
    | none =>
      cases hq : ((p == q) : Bool) with
      | true =>
        simp [Option.or, hq, VersionedEndpoint.make, List.insertionSort]
      | false =>
        simp [Option.or, hq]
    | some e =>
      have hq := h q
      unfold VersionRegistry.get_supported_versions VersionRegistry.get_endpoint at hq
      rw [hfind] at hq
      simpa [Option.or] using hq

theorem registerAll_sorted_aux :
    ∀ (events : List (String × ApiVersion)) (r : VersionRegistry),
    (∀ q, List.Pairwise ApiVersion.pyLe (r.get_supported_versions q)) →
    ∀ q, List.Pairwise ApiVersion.pyLe
      ((events.foldl (fun r pv => r.register_endpoint pv.1 pv.2) r).get_supported_versions q)
  | [], _, h, q => h q
  | e :: es, r, h, q =>
    registerAll_sorted_aux es (r.register_endpoint e.1 e.2)
      (supported_register_sorted r e.1 e.2 h) q

theorem registerAll_perm_aux :
    ∀ (events : List (String × ApiVersion)) (r : VersionRegistry) (q : String),
    ((events.foldl (fun r pv => r.register_endpoint pv.1 pv.2) r).get_supported_versions q).Perm
      (r.get_supported_versions q ++ (events.filter (fun e => e.1 == q)).map Prod.snd)
  | [], r, q => by simp
  | e :: es, r, q => by
    simp only [List.foldl_cons]
    have ih := registerAll_perm_aux es (r.register_endpoint e.1 e.2) q
    have hstep := supported_register_perm r e.1 e.2 q
    have h1 := ih.trans (hstep.append_right _)
    rw [List.append_assoc] at h1
    refine h1.trans (List.Perm.append_left _ ?_)
    cases he : (e.1 == q) with
    | true => simp [he]
    | false => simp [he]

/-- Counterexample to claim C5 as stated: registering version 1.0 twice for
the same path is not a no-op — the supported-version sequence ends up with
a duplicate entry. -/
theorem claim_C5_counterexample :
    (VersionRegistry.registerAll [("/p", apiVersion10), ("/p", apiVersion10)]
      ).get_supported_versions "/p" = [apiVersion10, apiVersion10]
    ∧ ¬ ((VersionRegistry.registerAll [("/p", apiVersion10), ("/p", apiVersion10)]
      ).get_supported_versions "/p").Nodup
    ∧ (VersionRegistry.registerAll [("/p", apiVersion10), ("/p", apiVersion10)]
      ).get_supported_versions "/p"
        ≠ (VersionRegistry.registerAll [("/p", apiVersion10)]).get_supported_versions "/p" := by
  refine ⟨by decide, by decide, by decide⟩

/-- Claim C5 as amended: `register_endpoint` has no duplicate check, so
re-registering an existing version appends another copy; after any sequence
of `register_endpoint` calls a path's supported-version sequence is sorted
ascending and consists (up to order) of exactly one entry per registration
event for that path. -/
theorem claim_C5 (events : List (String × ApiVersion)) (path : String) :
    List.Pairwise ApiVersion.pyLe
      ((VersionRegistry.registerAll events).get_supported_versions path)
    ∧ ((VersionRegistry.registerAll events).get_supported_versions path).Perm
        ((events.filter (fun e => e.1 == path)).map Prod.snd) := by
  constructor
  · exact registerAll_sorted_aux events VersionRegistry.empty (fun _ => List.Pairwise.nil) path
  · have h := registerAll_perm_aux events VersionRegistry.empty path
    simpa [VersionRegistry.get_supported_versions, VersionRegistry.get_endpoint,
      VersionRegistry.empty] using h

/-- Claim C9: a HEAD discovery probe never reaches the handler; it returns
status 200 with an empty body and, whenever the normalized path has
registered versions, the `API-Version` header set to the comma-joined
ascending version list; for a path with no registered versions the probe
still succeeds with no such header.  Includes the concrete probe of the
claim: a path registered for 3.0 and 3.1 answers with header value
`3.0,3.1`. -/
theorem claim_C9 (events : List (String × ApiVersion)) (req : HttpRequest)
    (hm : req.method = "HEAD") :
    (∃ resp, dispatch (VersionRegistry.registerAll events) req = .respond resp none ∧
      resp.status_code = 200 ∧ resp.body = "" ∧
      (((VersionRegistry.registerAll events).get_supported_versions
          (normalize_path req.url_path)) ≠ [] →
        resp.headers = [(API_VERSION_HEADER,
          String.intercalate ","
            (((VersionRegistry.registerAll events).get_supported_versions
              (normalize_path req.url_path)).map ApiVersion.toString))] ∧
        List.Pairwise ApiVersion.pyLe
          ((VersionRegistry.registerAll events).get_supported_versions
            (normalize_path req.url_path))) ∧
      (((VersionRegistry.registerAll events).get_supported_versions
          (normalize_path req.url_path)) = [] → resp.headers = []))
    ∧ dispatch (VersionRegistry.registerAll [("/shelters", apiVersion30),
        ("/shelters", apiVersion31)]) ⟨"HEAD", "/shelters", []⟩
      = .respond ⟨200, "", [(API_VERSION_HEADER, "3.0,3.1")]⟩ none := by
  constructor
  · unfold dispatch
    rw [if_pos (by simp [hm])]
    refine ⟨_, rfl, rfl, rfl, ?_, ?_⟩
    · intro hne
      constructor
      · simp [List.isEmpty_iff, hne]
      · exact registerAll_sorted_aux events VersionRegistry.empty
          (fun _ => List.Pairwise.nil) (normalize_path req.url_path)
    · intro he
      simp [he]
  · decide

/-- Witness for claim C9: the concrete probe instantiated through the
theorem. -/
theorem claim_C9_witness :
    ∃ resp, dispatch (VersionRegistry.registerAll [("/shelters", apiVersion30),
        ("/shelters", apiVersion31)]) ⟨"HEAD", "/shelters", []⟩ = .respond resp none ∧
      resp.status_code = 200 ∧ resp.body = "" := by
  obtain ⟨⟨resp, h1, h2, h3, _⟩, _⟩ :=
    claim_C9 [("/shelters", apiVersion30), ("/shelters", apiVersion31)]
      ⟨"HEAD", "/shelters", []⟩ rfl
  exact ⟨resp, h1, h2, h3⟩

/-- Claim C1: for every non-HEAD request, version negotiation has exactly
four outcomes.  A missing header (Python also treats a present-but-empty
header value as falsy) yields a 400 naming the missing header; a header
that fails to parse yields a 400 whose body contains the offending string;
a parsed but unsupported version yields a 406 whose body lists the
normalized path's supported versions; otherwise the parsed version is
attached to the request state and the request proceeds to the next stage.
In the first three outcomes the wrapped handler is never invoked
(`NegotiationResult.respond`). -/
theorem claim_C1 (reg : VersionRegistry) (req : HttpRequest) (hm : req.method ≠ "HEAD") :
    (getHeader req.headers API_VERSION_HEADER = none →
      dispatch reg req =
        .respond ⟨400, "Missing required header: " ++ API_VERSION_HEADER, []⟩ none)
    ∧ (∀ s, getHeader req.headers API_VERSION_HEADER = some s →
        ApiVersion.parse s = none →
        ∃ body, dispatch reg req = .respond ⟨400, body, []⟩ none ∧
          ∃ pre post, body = pre ++ s ++ post)
    ∧ (∀ s v, getHeader req.headers API_VERSION_HEADER = some s →
        ApiVersion.parse s = some v →
        reg.supports_version (normalize_path req.url_path) v = false →
        dispatch reg req = .respond
          ⟨406, "API version " ++ v.vstr ++
            " not supported for this endpoint. Supported versions: " ++
            String.intercalate ", "
              ((reg.get_supported_versions (normalize_path req.url_path)).map
                ApiVersion.toString), []⟩
          (some v))
    ∧ (∀ s v, getHeader req.headers API_VERSION_HEADER = some s →
        ApiVersion.parse s = some v →
        reg.supports_version (normalize_path req.url_path) v = true →
        dispatch reg req = .proceed v) := by
  have hmb : (req.method == "HEAD") = false := by
    simpa using hm
  refine ⟨?_, ?_, ?_, ?_⟩
  · intro hh
    unfold dispatch
    rw [hmb]
    simp only [Bool.false_eq_true, if_false]
    rw [hh]
  · intro s hh hp
    unfold dispatch
    rw [hmb]
    simp only [Bool.false_eq_true, if_false, hh]
    by_cases hse : (s == "") = true
    · have hs0 : s = "" := by simpa using hse
      subst hs0
      exact ⟨_, rfl, "Missing required header: " ++ API_VERSION_HEADER, "", by simp⟩
    · have hse' : (s == "") = false := by simpa using hse
      simp only [hse', Bool.false_eq_true, if_false, hp]
      exact ⟨_, rfl, "Invalid API-Version format: ", ". Expected format: major.minor", rfl⟩
  · intro s v hh hp hsup
    unfold dispatch
    rw [hmb]
    simp only [Bool.false_eq_true, if_false, hh]
    have hse : (s == "") = false := by
      cases h' : (s == "") with
      | false => rfl
      | true =>
        have hs0 : s = "" := by simpa using h'
        subst hs0
        exact Option.noConfusion hp
    simp only [hse, Bool.false_eq_true, if_false, hp, hsup]
  · intro s v hh hp hsup
    unfold dispatch
    rw [hmb]
    simp only [Bool.false_eq_true, if_false, hh]
    have hse : (s == "") = false := by
      cases h' : (s == "") with
      | false => rfl
      | true =>
        have hs0 : s = "" := by simpa using h'
        subst hs0
        exact Option.noConfusion hp
    simp only [hse, Bool.false_eq_true, if_false, hp, hsup, if_true]

/-- Witness for claim C1: a GET request declaring the unregistered version
9.9 against a path registered only for 1.0 is answered by the middleware
with a 406 listing the supported version. -/
theorem claim_C1_witness :
    dispatch (VersionRegistry.registerAll [("/pets", apiVersion10)])
      ⟨"GET", "/pets", [("API-Version", "9.9")]⟩
      = .respond
          ⟨406, "API version 9.9 not supported for this endpoint. Supported versions: 1.0", []⟩
          (some ⟨9, 9, "9.9"⟩) := by
  have h := (claim_C1 (VersionRegistry.registerAll [("/pets", apiVersion10)])
      ⟨"GET", "/pets", [("API-Version", "9.9")]⟩ (by decide)).2.2.1 "9.9" ⟨9, 9, "9.9"⟩
      (by decide) (by decide) (by decide)
  rw [h]
  decide

/-- Helper: a string whose scanner fails does not parse. -/
theorem parse_eq_none_of_scan_none {s : String} (h : scanMajorMinor s.toList = none) :
    ApiVersion.parse s = none := by
  simp [ApiVersion.parse, matchVersionPattern,
    show scanMajorMinor s.data = none from h]

/-- Claim C7: every string matching the strict pattern (digits, dot,
digits) parses, and formatting the parsed version returns the original
string; the empty string, a bare number with no dot, a negative number and
any other string not starting with a digit all fail to parse. -/
theorem claim_C7 :
    (∀ s, strictVersionString s = true →
      ∃ v, ApiVersion.parse s = some v ∧ ApiVersion.toString v = s)
    ∧ ApiVersion.parse "" = none
    ∧ (∀ s, s.toList ≠ [] → (∀ c ∈ s.toList, c.isDigit = true) →
        ApiVersion.parse s = none)
    ∧ (∀ s c cs, s.toList = c :: cs → c = '-' → ApiVersion.parse s = none)
    ∧ (∀ s c cs, s.toList = c :: cs → c.isDigit = false → ApiVersion.parse s = none) := by
  have hNonDigitHead : ∀ (s : String) (c : Char) (cs : List Char),
      s.toList = c :: cs → c.isDigit = false → ApiVersion.parse s = none := by
    intro s c cs hs hc
    apply parse_eq_none_of_scan_none
    rw [hs]
    simp [scanMajorMinor, takeDigits, List.takeWhile_cons, hc]
  refine ⟨?_, by decide, ?_, ?_, hNonDigitHead⟩
  · intro s h
    unfold strictVersionString at h
    cases hscan : scanMajorMinor s.toList with
    | none => rw [hscan] at h; simp at h
    | some t =>
      obtain ⟨d1, d2, rest⟩ := t
      rw [hscan] at h
      have hrest : rest = [] := by simpa using h
      subst hrest
      refine ⟨⟨natOfDigits d1, natOfDigits d2, s⟩, ?_, rfl⟩
      simp [ApiVersion.parse, matchVersionPattern,
        show scanMajorMinor s.data = some (d1, d2, []) from hscan]
  · intro s hne hdig
    apply parse_eq_none_of_scan_none
    have htake : s.toList.takeWhile Char.isDigit = s.toList :=
      List.takeWhile_eq_self_iff.mpr hdig
    have hdrop : s.toList.dropWhile Char.isDigit = [] :=
      List.dropWhile_eq_nil_iff.mpr hdig
    unfold scanMajorMinor takeDigits
    rw [htake, hdrop]
    simp [List.isEmpty_iff, hne]
  · intro s c cs hs hc
    exact hNonDigitHead s c cs hs (by simp [hc])

/-- Witness for claim C7: the string `1.0` parses and formats back to
itself, and the strings of the malformed families fail. -/
theorem claim_C7_witness :
    (∃ v, ApiVersion.parse "1.0" = some v ∧ ApiVersion.toString v = "1.0")
    ∧ ApiVersion.parse "42" = none
    ∧ ApiVersion.parse "-1.0" = none
    ∧ ApiVersion.parse "abc" = none := by
  refine ⟨claim_C7.1 "1.0" (by decide), ?_, ?_, ?_⟩
  · exact claim_C7.2.2.1 "42" (by decide) (by decide)
  · exact claim_C7.2.2.2.1 "-1.0" '-' ['1', '.', '0'] (by decide) rfl
  · exact claim_C7.2.2.2.2 "abc" 'a' ['b', 'c'] (by decide) (by decide)

/-- Claim C6 evaluation: the normalization heuristic maps both concrete
pet paths (and the docstring's own example `/pets/123`) to `/pets/{id}`,
but the route was registered under `/pets/{pet_id}`, so the normalized
string resolves to no registry entry at all: the lookup misses and the
supported-version list for such requests is empty. -/
theorem claim_C6 :
    normalize_path "/pets/abc123" = "/pets/\x7bid\x7d"
    ∧ normalize_path "/pets/def456" = "/pets/\x7bid\x7d"
    ∧ normalize_path "/pets/123" = "/pets/\x7bid\x7d"
    ∧ normalize_path "/pets/123" ≠ "/pets/\x7bpet_id\x7d"
    ∧ appRegistry.get_endpoint "/pets/\x7bid\x7d" = none
    ∧ appRegistry.get_endpoint "/pets/\x7bpet_id\x7d" ≠ none
    ∧ appRegistry.get_supported_versions (normalize_path "/pets/abc123") = []
    ∧ appRegistry.supports_version (normalize_path "/pets/abc123") apiVersion10 = false := by
  refine ⟨by decide, by decide, by decide, by decide, by decide, by decide, by decide, by decide⟩

/-- Claim C10: when the raw request path is not a registry key — the
dispatcher looks it up with no normalization — the wrapper calls the
handler with its original arguments and performs no shim lookup or
application; in particular the concrete parameterized path
`/pets/123e4567-e89b-12d3-a456-426614174000` is not a key of the
application registry (the route is registered as `/pets/{pet_id}`). -/
theorem claim_C10 (vreg : VersionRegistry) (sreg : ShimRegistry)
    (handler : Value → Except String Value) (req : DispatchRequest) (kwargs : Value)
    (h : vreg.get_endpoint req.url_path = none) :
    dispatchWrapper vreg sreg handler (some req) kwargs
      = (handler kwargs).map (fun r => (r, 0, 0))
    ∧ appRegistry.get_endpoint "/pets/123e4567-e89b-12d3-a456-426614174000" = none := by
  constructor
  · unfold dispatchWrapper
    simp only [h]
    cases hh : handler kwargs <;> rfl
  · decide

/-- Witness for claim C10: the wrapper around an echo handler, invoked on
the concrete parameterized pet path, returns the untouched kwargs with
zero shim lookups and zero shim applications. -/
theorem claim_C10_witness :
    dispatchWrapper appRegistry (appShimRegistry 0) (fun v => .ok v)
      (some ⟨"/pets/123e4567-e89b-12d3-a456-426614174000", some apiVersion10, .vNull⟩)
      (.vDict [])
      = .ok (.vDict [], 0, 0) := by
  have h := (claim_C10 appRegistry (appShimRegistry 0) (fun v => .ok v)
    ⟨"/pets/123e4567-e89b-12d3-a456-426614174000", some apiVersion10, .vNull⟩ (.vDict [])
    (by decide)).1
  rw [h]
  rfl

/-- Claim C4: when the resolved requested version (the request state's
version, or the latest when no state was attached) equals — by
`ApiVersion.__eq__` — the endpoint's latest version, the dispatcher
short-circuits: the handler runs on the untransformed kwargs, the result is
returned untransformed, and the shim lookup and application counters are
both zero. -/
theorem claim_C4 (vreg : VersionRegistry) (sreg : ShimRegistry)
    (handler : Value → Except String Value) (req : DispatchRequest) (kwargs : Value)
    (e : VersionedEndpoint) (lv : ApiVersion)
    (hep : vreg.get_endpoint req.url_path = some e)
    (hlv : e.get_latest_version = some lv)
    (hreq : ApiVersion.eqv (req.state_api_version.getD lv) lv = true) :
    dispatchWrapper vreg sreg handler (some req) kwargs
      = (handler kwargs).map (fun r => (r, 0, 0)) := by
  unfold dispatchWrapper
  simp only [hep, hlv, hreq, if_true]
  cases hh : handler kwargs <;> rfl

/-- Witness for claim C4: a request declaring the latest (and only)
registered version of its path is dispatched straight to the handler with
zero shim lookups and applications. -/
theorem claim_C4_witness :
    dispatchWrapper (VersionRegistry.registerAll [("/pets", apiVersion10)])
      (appShimRegistry 0) (fun v => .ok v)
      (some ⟨"/pets", some apiVersion10, .vNull⟩) (.vDict [("x", .vInt 1)])
      = .ok (.vDict [("x", .vInt 1)], 0, 0) := by
  have h := claim_C4 (VersionRegistry.registerAll [("/pets", apiVersion10)])
    (appShimRegistry 0) (fun v => .ok v)
    ⟨"/pets", some apiVersion10, .vNull⟩ (.vDict [("x", .vInt 1)])
    ⟨"/pets", [apiVersion10]⟩ apiVersion10 (by decide) (by decide) (by decide)
  rw [h]
  rfl

/-! ### Inversion lemmas for model construction -/

theorem mapM_resolve_cons_inv {fields : List (String × Value)} {fs : FieldSpec}
    {rest : List FieldSpec} {out : List (String × Value)}
    (h : (fs :: rest).mapM (resolveField fields) = some out) :
    ∃ p ps, resolveField fields fs = some p ∧
      rest.mapM (resolveField fields) = some ps ∧ out = p :: ps := by
  rw [List.mapM_cons] at h
  obtain ⟨p, hp, h2⟩ := Option.bind_eq_some.mp h
  obtain ⟨ps, hps, h3⟩ := Option.bind_eq_some.mp h2
  have hout : out = p :: ps := by simpa using h3.symm
  exact ⟨p, ps, hp, hps, hout⟩

theorem resolveField_str_inv {fields : List (String × Value)} {p : String × Value}
    {name : String} (h : resolveField fields ⟨name, validateStr, none⟩ = some p) :
    ∃ n, p = (name, Value.vStr n) := by
  unfold resolveField at h
  cases hd : dictGet? fields name with
  | none => rw [hd] at h; simp at h
  | some v =>
    rw [hd] at h
    obtain ⟨w, hw, hpw⟩ := Option.map_eq_some'.mp h
    cases v <;> simp [validateStr] at hw
    exact ⟨_, by rw [← hpw, hw]⟩

theorem resolveField_enum_inv {fields : List (String × Value)} {p : String × Value}
    {name : String} {vals : List String}
    (h : resolveField fields ⟨name, validateEnum vals, none⟩ = some p) :
    ∃ s, p = (name, Value.vStr s) ∧ vals.contains s = true := by
  unfold resolveField at h
  cases hd : dictGet? fields name with
  | none => rw [hd] at h; simp at h
  | some v =>
    rw [hd] at h
    obtain ⟨w, hw, hpw⟩ := Option.map_eq_some'.mp h
    cases v <;> simp [validateEnum] at hw
    case vStr s =>
      obtain ⟨hc, hws⟩ := hw
      exact ⟨s, by rw [← hpw, hws], by simpa using hc⟩

theorem resolveField_enum_dflt_inv {fields : List (String × Value)} {p : String × Value}
    {name d : String} {vals : List String}
    (h : resolveField fields ⟨name, validateEnum vals, some (Value.vStr d)⟩ = some p) :
    ∃ s, p = (name, Value.vStr s) ∧ (vals.contains s = true ∨ s = d) := by
  unfold resolveField at h
  cases hd : dictGet? fields name with
  | none =>
    rw [hd] at h
    refine ⟨d, ?_, Or.inr rfl⟩
    simpa using h.symm
  | some v =>
    rw [hd] at h
    obtain ⟨w, hw, hpw⟩ := Option.map_eq_some'.mp h
    cases v <;> simp [validateEnum] at hw
    case vStr s =>
      obtain ⟨hc, hws⟩ := hw
      exact ⟨s, by rw [← hpw, hws], Or.inl (by simpa using hc)⟩

theorem resolveField_int_inv {fields : List (String × Value)} {p : String × Value}
    {name : String} (h : resolveField fields ⟨name, validateInt, none⟩ = some p) :
    ∃ a, p = (name, Value.vInt a) := by
  unfold resolveField at h
  cases hd : dictGet? fields name with
  | none => rw [hd] at h; simp at h
  | some v =>
    rw [hd] at h
    obtain ⟨w, hw, hpw⟩ := Option.map_eq_some'.mp h
    cases v <;> simp [validateInt] at hw
    exact ⟨_, by rw [← hpw, hw]⟩

theorem resolveField_optDate_inv {fields : List (String × Value)} {p : String × Value}
    {name : String}
    (h : resolveField fields ⟨name, validateOptDatetime, some Value.vNull⟩ = some p) :
    p = (name, Value.vNull) ∨ ∃ d, p = (name, Value.vDatetime d) := by
  unfold resolveField at h
  cases hd : dictGet? fields name with
  | none =>
    rw [hd] at h
    exact Or.inl (by simpa using h.symm)
  | some v =>
    rw [hd] at h
    obtain ⟨w, hw, hpw⟩ := Option.map_eq_some'.mp h
    cases v <;> simp [validateOptDatetime] at hw
    case vNull => exact Or.inl (by rw [← hpw, hw])
    case vDatetime d => exact Or.inr ⟨d, by rw [← hpw, hw]⟩

theorem resolveField_tags_inv {fields : List (String × Value)} {p : String × Value}
    {name : String}
    (h : resolveField fields ⟨name, validateTags, some (Value.vList [])⟩ = some p) :
    ∃ xs, p = (name, Value.vList xs) ∧ xs.all isStrValue = true := by
  unfold resolveField at h
  cases hd : dictGet? fields name with
  | none =>
    rw [hd] at h
    exact ⟨[], by simpa using h.symm, rfl⟩
  | some v =>
    rw [hd] at h
    obtain ⟨w, hw, hpw⟩ := Option.map_eq_some'.mp h
    cases v <;> simp [validateTags] at hw
    case vList xs =>
      obtain ⟨hall, hws⟩ := hw
      refine ⟨xs, by rw [← hpw, hws], ?_⟩
      simpa using hall

/-- Every successfully constructed `PetCreateV2` instance has exactly the
four declared fields in declaration order, with a v2 species and an
optional birth date. -/
theorem mkPetCreateV2_ok_shape {fields : List (String × Value)} {m : Value}
    (h : mkPetCreateV2 fields = .ok m) :
    ∃ n sp a bv,
      m = .vModel .petCreateV2
        [("name", .vStr n), ("species", .vStr sp), ("age", .vInt a), ("birth_date", bv)]
      ∧ petSpeciesV2Values.contains sp = true
      ∧ (bv = .vNull ∨ ∃ d, bv = .vDatetime d) := by
  unfold mkPetCreateV2 buildModel at h
  cases hmap : petCreateV2Spec.mapM (resolveField fields) with
  | none => rw [hmap] at h; exact Except.noConfusion h
  | some out =>
    rw [hmap] at h
    injection h with h'
    rw [show petCreateV2Spec =
      [⟨"name", validateStr, none⟩, ⟨"species", validateEnum petSpeciesV2Values, none⟩,
       ⟨"age", validateInt, none⟩, ⟨"birth_date", validateOptDatetime, some .vNull⟩]
      from rfl] at hmap
    obtain ⟨p1, ps1, hp1, hmap1,ho1⟩ := mapM_resolve_cons_inv hmap
    obtain ⟨p2, ps2, hp2, hmap2, ho2⟩ := mapM_resolve_cons_inv hmap1
    obtain ⟨p3, ps3, hp3, hmap3, ho3⟩ := mapM_resolve_cons_inv hmap2
    obtain ⟨p4, ps4, hp4, hmap4, ho4⟩ := mapM_resolve_cons_inv hmap3
    have hps4 : ps4 = [] := by
      have h0 : ([] : List FieldSpec).mapM (resolveField fields)
          = (some [] : Option (List (String × Value))) := rfl
      rw [h0] at hmap4
      exact (Option.some_inj.mp hmap4).symm
    obtain ⟨n, hn⟩ := resolveField_str_inv hp1
    obtain ⟨sp, hsp, hspc⟩ := resolveField_enum_inv hp2
    obtain ⟨a, ha⟩ := resolveField_int_inv hp3
    have hbd := resolveField_optDate_inv hp4
    rcases hbd with hbd | ⟨d, hbd⟩
    · exact ⟨n, sp, a, .vNull, by
        rw [← h', ho1, ho2, ho3, ho4, hps4, hn, hsp, ha, hbd], hspc, Or.inl rfl⟩
    · exact ⟨n, sp, a, .vDatetime d, by
        rw [← h', ho1, ho2, ho3, ho4, hps4, hn, hsp, ha, hbd], hspc, Or.inr ⟨d, rfl⟩⟩

/-- Every successfully constructed `PetCreateV3` instance has exactly the
six declared fields in declaration order. -/
theorem mkPetCreateV3_ok_shape {fields : List (String × Value)} {m : Value}
    (h : mkPetCreateV3 fields = .ok m) :
    ∃ n sp a bv sz xs,
      m = .vModel .petCreateV3
        [("name", .vStr n), ("species", .vStr sp), ("age_months", .vInt a),
         ("birth_date", bv), ("size", .vStr sz), ("tags", .vList xs)]
      ∧ petSpeciesV3Values.contains sp = true
      ∧ (bv = .vNull ∨ ∃ d, bv = .vDatetime d)
      ∧ (petSizeV3Values.contains sz = true ∨ sz = "medium")
      ∧ xs.all isStrValue = true := by
  unfold mkPetCreateV3 buildModel at h
  cases hmap : petCreateV3Spec.mapM (resolveField fields) with
  | none => rw [hmap] at h; exact Except.noConfusion h
  | some out =>
    rw [hmap] at h
    injection h with h'
    rw [show petCreateV3Spec =
      [⟨"name", validateStr, none⟩, ⟨"species", validateEnum petSpeciesV3Values, none⟩,
       ⟨"age_months", validateInt, none⟩, ⟨"birth_date", validateOptDatetime, some .vNull⟩,
       ⟨"size", validateEnum petSizeV3Values, some (.vStr "medium")⟩,
       ⟨"tags", validateTags, some (.vList [])⟩]
      from rfl] at hmap
    obtain ⟨p1, ps1, hp1, hmap1, ho1⟩ := mapM_resolve_cons_inv hmap
    obtain ⟨p2, ps2, hp2, hmap2, ho2⟩ := mapM_resolve_cons_inv hmap1
    obtain ⟨p3, ps3, hp3, hmap3, ho3⟩ := mapM_resolve_cons_inv hmap2
    obtain ⟨p4, ps4, hp4, hmap4, ho4⟩ := mapM_resolve_cons_inv hmap3
    obtain ⟨p5, ps5, hp5, hmap5, ho5⟩ := mapM_resolve_cons_inv hmap4
    obtain ⟨p6, ps6, hp6, hmap6, ho6⟩ := mapM_resolve_cons_inv hmap5
    have hps6 : ps6 = [] := by
      have h0 : ([] : List FieldSpec).mapM (resolveField fields)
          = (some [] : Option (List (String × Value))) := rfl
      rw [h0] at hmap6
      exact (Option.some_inj.mp hmap6).symm
    obtain ⟨n, hn⟩ := resolveField_str_inv hp1
    obtain ⟨sp, hsp, hspc⟩ := resolveField_enum_inv hp2
    obtain ⟨a, ha⟩ := resolveField_int_inv hp3
    have hbd := resolveField_optDate_inv hp4
    obtain ⟨sz, hsz, hszc⟩ := resolveField_enum_dflt_inv hp5
    obtain ⟨xs, hxs, hxsall⟩ := resolveField_tags_inv hp6
    rcases hbd with hbd | ⟨d, hbd⟩
    · exact ⟨n, sp, a, .vNull, sz, xs, by
        rw [← h', ho1, ho2, ho3, ho4, ho5, ho6, hps6, hn, hsp, ha, hbd, hsz, hxs],
        hspc, Or.inl rfl, hszc, hxsall⟩
    · exact ⟨n, sp, a, .vDatetime d, sz, xs, by
        rw [← h', ho1, ho2, ho3, ho4, ho5, ho6, hps6, hn, hsp, ha, hbd, hsz, hxs],
        hspc, Or.inr ⟨d, rfl⟩, hszc, hxsall⟩

/-- Reduction of an `Except` bind whose left side already succeeded. -/
theorem exceptBind_ok {ε α β : Type} (a : α) (f : α → Except ε β) :
    (Except.ok a >>= f : Except ε β) = f a := rfl

/-- Reduction of `List.mapM.loop` over `Option` at a cons cell. -/
theorem optionMapMLoop_cons {α β : Type} (f : α → Option β) (a : α) (as : List α)
    (acc : List β) :
    List.mapM.loop f (a :: as) acc = (f a).bind (fun b => List.mapM.loop f as (b :: acc)) := rfl

/-- Reduction of `List.mapM.loop` over `Option` at the end of the list. -/
theorem optionMapMLoop_nil {α β : Type} (f : α → Option β) (acc : List β) :
    List.mapM.loop f [] acc = some acc.reverse := rfl

/-- Reduction of an `Option` bind whose left side is `some`. -/
theorem optionBind_some {α β : Type} (a : α) (f : α → Option β) :
    (some a).bind f = f a := rfl

/-- Every v1 species is a v2 species. -/
theorem speciesV1_sub_V2 {s : String} (h : petSpeciesV1Values.contains s = true) :
    petSpeciesV2Values.contains s = true := by
  have hs : s = "dog" ∨ s = "cat" ∨ s = "bird" := by
    simpa [petSpeciesV1Values] using h
  rcases hs with rfl | rfl | rfl <;> decide

/-- Every v2 species is a v3 species. -/
theorem speciesV2_sub_V3 {s : String} (h : petSpeciesV2Values.contains s = true) :
    petSpeciesV3Values.contains s = true := by
  have hs : s = "dog" ∨ s = "cat" ∨ s = "bird" ∨ s = "fish" ∨ s = "reptile" := by
    simpa [petSpeciesV2Values] using h
  rcases hs with rfl | rfl | rfl | rfl | rfl <;> decide

/-- Totality of the v1-to-v2 request shim on every payload shape a v1
create request can produce. -/
theorem shim_v1_to_v2_total (now : Int) (n sp : String) (a : Int)
    (hsp : petSpeciesV1Values.contains sp = true) :
    ∃ out, shim_pet_request_v1_to_v2 now
      (.vDict [("body", .vDict
        [("name", .vStr n), ("species", .vStr sp), ("age", .vInt a)])]) = .ok out := by
  have hsp2 : petSpeciesV2Values.contains sp = true := speciesV1_sub_V2 hsp
  have hsp2m : sp ∈ petSpeciesV2Values := by simpa using hsp2
  refine ⟨.vDict [("body", .vDict
    [("name", .vStr n), ("species", .vStr sp), ("age", .vInt a),
     ("birth_date", .vDatetime (now - a * 365))])], ?_⟩
  simp +decide [shim_pet_request_v1_to_v2, exceptBind_ok, dictGet?, dictSet, hsp2, hsp2m]

/-- Totality of the v2-to-v3 request shim on every `PetCreateV2` body. -/
theorem shim_v2_to_v3_total (n sp : String) (a : Int) (bv : Value)
    (hsp : petSpeciesV2Values.contains sp = true)
    (hbv : bv = Value.vNull ∨ ∃ d, bv = Value.vDatetime d) :
    ∃ out, shim_pet_request_v2_to_v3
      (.vDict [("body", .vModel .petCreateV2
        [("name", .vStr n), ("species", .vStr sp),
         ("age", .vInt a), ("birth_date", bv)])]) = .ok out := by
  have hsp3 : petSpeciesV3Values.contains sp = true := speciesV2_sub_V3 hsp
  have hsp3m : sp ∈ petSpeciesV3Values := by simpa using hsp3
  refine ⟨.vDict [("body", .vModel .petCreateV3
    [("name", .vStr n), ("species", .vStr sp), ("age_months", .vInt (a * 12)),
     ("birth_date", bv), ("size", .vStr "medium"), ("tags", .vList [])])], ?_⟩
  rcases hbv with rfl | ⟨d, rfl⟩ <;>
    simp +decide [shim_pet_request_v2_to_v3, exceptBind_ok, dictGet?, dictSet, dictDel, dictMem,
      mkPetCreateV3, buildModel, resolveField, petCreateV3Spec,
      validateStr, validateEnum, validateInt, validateOptDatetime, validateTags,
      hsp3, hsp3m, List.mapM_cons, List.mapM_nil,
      optionMapMLoop_cons, optionMapMLoop_nil, optionBind_some]

/-- Totality of the v3-to-v3.1 request shim on every `PetCreateV3` body. -/
theorem shim_v3_to_v3_1_total (n sp sz : String) (a : Int) (bv : Value) (xs : List Value)
    (hsp : petSpeciesV3Values.contains sp = true)
    (hbv : bv = Value.vNull ∨ ∃ d, bv = Value.vDatetime d)
    (hsz : petSizeV3Values.contains sz = true)
    (hxs : xs.all isStrValue = true) :
    ∃ out, shim_pet_request_v3_to_v3_1
      (.vDict [("body", .vModel .petCreateV3
        [("name", .vStr n), ("species", .vStr sp), ("age_months", .vInt a),
         ("birth_date", bv), ("size", .vStr sz), ("tags", .vList xs)])]) = .ok out := by
  have hspm : sp ∈ petSpeciesV3Values := by simpa using hsp
  have hszm : sz ∈ petSizeV3Values := by simpa using hsz
  refine ⟨.vDict [("body", .vModel .petCreateV3_1
    [("name", .vStr n), ("species", .vStr sp), ("age_months", .vInt a),
     ("birth_date", bv), ("size", .vStr sz), ("tags", .vList xs),
     ("health_status", .vStr "good")])], ?_⟩
  rcases hbv with rfl | ⟨d, rfl⟩ <;>
    simp +decide [shim_pet_request_v3_to_v3_1, exceptBind_ok, dictGet?, dictSet, dictDel, dictMem,
      mkPetCreateV3_1, buildModel, resolveField, petCreateV3_1Spec, petCreateV3Spec,
      validateStr, validateEnum, validateInt, validateOptDatetime, validateTags,
      hsp, hspm, hsz, hszm, hxs, List.mapM_cons, List.mapM_nil,
      optionMapMLoop_cons, optionMapMLoop_nil, optionBind_some]

/-- Counterexample to claim C8 as stated: the v2-to-v3 request shim does
not leave its input unchanged — it aliases `request_data` and writes the
transformed `PetCreateV3` body back into the caller's dictionary, so after
the call the input dictionary no longer equals its original value. -/
theorem claim_C8_counterexample :
    shim_pet_request_v2_to_v3_input_after petKwargsV2Example ≠ petKwargsV2Example := by
  intro h
  have h2 := congrArg bodyModelTag h
  rw [show bodyModelTag (shim_pet_request_v2_to_v3_input_after petKwargsV2Example)
      = some ModelTag.petCreateV3 from rfl] at h2
  rw [show bodyModelTag petKwargsV2Example = some ModelTag.petCreateV2 from rfl] at h2
  exact absurd h2 (by decide)

/-- Claim C8 as amended: the v1-to-v2 request shim deep-copies and is pure
(its input is unchanged after the call), but the v2-to-v3 and v3-to-v3.1
request shims alias their input and mutate it in place — after a
successful call the caller's dictionary equals the returned value.  All
three shims remain total over every payload shape their source version can
produce, including shapes with the optional fields absent (covered by
quantifying over arbitrary successfully-validated source models, whose
optional fields may have been filled from defaults). -/
theorem claim_C8 :
    (∀ (now : Int) (rd : Value), shim_pet_request_v1_to_v2_input_after now rd = rd)
    ∧ (∀ (rd out : Value), shim_pet_request_v2_to_v3 rd = .ok out →
        shim_pet_request_v2_to_v3_input_after rd = out)
    ∧ (∀ (rd out : Value), shim_pet_request_v3_to_v3_1 rd = .ok out →
        shim_pet_request_v3_to_v3_1_input_after rd = out)
    ∧ (∀ (now : Int) (n sp : String) (a : Int),
        petSpeciesV1Values.contains sp = true →
        ∃ out, shim_pet_request_v1_to_v2 now
          (.vDict [("body", .vDict
            [("name", .vStr n), ("species", .vStr sp), ("age", .vInt a)])]) = .ok out)
    ∧ (∀ (fields : List (String × Value)) (m : Value), mkPetCreateV2 fields = .ok m →
        ∃ out, shim_pet_request_v2_to_v3 (.vDict [("body", m)]) = .ok out)
    ∧ (∀ (fields : List (String × Value)) (m : Value), mkPetCreateV3 fields = .ok m →
        ∃ out, shim_pet_request_v3_to_v3_1 (.vDict [("body", m)]) = .ok out) := by
  refine ⟨fun _ _ => rfl, ?_, ?_, ?_, ?_, ?_⟩
  · intro rd out h
    unfold shim_pet_request_v2_to_v3_input_after
    rw [h]
  · intro rd out h
    unfold shim_pet_request_v3_to_v3_1_input_after
    rw [h]
  · intro now n sp a hsp
    exact shim_v1_to_v2_total now n sp a hsp
  · intro fields m hm
    obtain ⟨n, sp, a, bv, hshape, hsp, hbv⟩ := mkPetCreateV2_ok_shape hm
    subst hshape
    exact shim_v2_to_v3_total n sp a bv hsp hbv
  · intro fields m hm
    obtain ⟨n, sp, a, bv, sz, xs, hshape, hsp, hbv, hszc, hxsall⟩ := mkPetCreateV3_ok_shape hm
    subst hshape
    have hsz : petSizeV3Values.contains sz = true := by
      rcases hszc with h | rfl
      · exact h
      · decide
    exact shim_v3_to_v3_1_total n sp sz a bv xs hsp hbv hsz hxsall

/-- Witness for claim C8: the concrete `PetCreateV2` example body goes
through the v2-to-v3 shim successfully. -/
theorem claim_C8_witness :
    ∃ out, shim_pet_request_v2_to_v3 (.vDict [("body", petV2ModelExample)]) = .ok out :=
  claim_C8.2.2.2.2.1
    [("name", .vStr "Fluffy"), ("species", .vStr "dog"), ("age", .vInt 3)]
    petV2ModelExample (by rfl)

/-- On a model instance (never falsy, not a list), the v3.1-to-v3 response
shim runs its core. -/
theorem respShim31_model (t : ModelTag) (fs : List (String × Value)) :
    shim_pet_response_v3_1_to_v3 (.vModel t fs)
      = shim_pet_response_v3_1_to_v3_core (.vModel t fs) := by
  unfold shim_pet_response_v3_1_to_v3
  rfl

/-- On a model instance, the v3-to-v2 response shim runs its core. -/
theorem respShim32_model (t : ModelTag) (fs : List (String × Value)) :
    shim_pet_response_v3_to_v2 (.vModel t fs)
      = shim_pet_response_v3_to_v2_core (.vModel t fs) := by
  unfold shim_pet_response_v3_to_v2
  rfl

/-- Claim C3 evaluation at the failing input (the spec's own v1 scenario
payload, with `now = 0` and pet id `pet-1`): the full forward request-shim
chain from 1.0 looks up and applies all three registered shims (counters
3 and 3), yet its output body is still a plain dictionary carrying `age`
in years plus the estimated `birth_date` — the v2-to-v3 shim's
`isinstance(body, PetCreateV2)` guard sees the dict the v1-to-v2 shim
produced and passes it through, so the years-to-months conversion and the
v3/v3.1 defaults never happen and the payload never reaches the latest
shape.  Consequently the full round trip (forward chain, latest-version
handler echo, backward chain) raises instead of returning the original
payload.  For contrast, a payload that enters the chain at 2.0 as a real
`PetCreateV2` instance does round-trip to its original fields. -/
theorem claim_C3 :
    petForwardChain 0 apiVersion10 petV1PayloadExample
      = .ok (.vDict [("body", .vDict
          [("name", .vStr "Fluffy"), ("species", .vStr "dog"),
           ("age", .vInt 3), ("birth_date", .vDatetime (0 - 3 * 365))])], 3, 3)
    ∧ petRoundTrip 0 "pet-1" apiVersion10 petV1PayloadExample
        = .error "AttributeError: model_dump"
    ∧ petRoundTrip 0 "pet-1" apiVersion20 petV2ModelExample
        = .ok (.vModel .petV2
            [("id", .vStr "pet-1"), ("name", .vStr "Fluffy"),
             ("species", .vStr "dog"), ("age", .vInt 3), ("birth_date", .vNull)]) := by
  refine ⟨rfl, rfl, ?_⟩
  have hs1 : shim_pet_response_v3_1_to_v3 (.vModel .petV3_1
      [("id", .vStr "pet-1"), ("name", .vStr "Fluffy"), ("species", .vStr "dog"),
       ("age_months", .vInt 36), ("birth_date", .vNull), ("size", .vStr "medium"),
       ("tags", .vList []), ("health_status", .vStr "good")])
      = .ok (.vModel .petV3
      [("id", .vStr "pet-1"), ("name", .vStr "Fluffy"), ("species", .vStr "dog"),
       ("age_months", .vInt 36), ("birth_date", .vNull), ("size", .vStr "medium"),
       ("tags", .vList [])]) := by
    rw [respShim31_model]
    rfl
  have hs2 : shim_pet_response_v3_to_v2 (.vModel .petV3
      [("id", .vStr "pet-1"), ("name", .vStr "Fluffy"), ("species", .vStr "dog"),
       ("age_months", .vInt 36), ("birth_date", .vNull), ("size", .vStr "medium"),
       ("tags", .vList [])])
      = .ok (.vModel .petV2
      [("id", .vStr "pet-1"), ("name", .vStr "Fluffy"), ("species", .vStr "dog"),
       ("age", .vInt 3), ("birth_date", .vNull)]) := by
    rw [respShim32_model]
    rfl
  have hrun1 : runShimHops ((appShimRegistry 0).get_response_shim "/pets")
      [(apiVersion30, apiVersion20)]
      (.vModel .petV3
        [("id", .vStr "pet-1"), ("name", .vStr "Fluffy"), ("species", .vStr "dog"),
         ("age_months", .vInt 36), ("birth_date", .vNull), ("size", .vStr "medium"),
         ("tags", .vList [])])
      = .ok (.vModel .petV2
          [("id", .vStr "pet-1"), ("name", .vStr "Fluffy"), ("species", .vStr "dog"),
           ("age", .vInt 3), ("birth_date", .vNull)], 1, 1) := by
    change (do
      let y ← shim_pet_response_v3_to_v2 (.vModel .petV3
        [("id", .vStr "pet-1"), ("name", .vStr "Fluffy"), ("species", .vStr "dog"),
         ("age_months", .vInt 36), ("birth_date", .vNull), ("size", .vStr "medium"),
         ("tags", .vList [])])
      let (z, l, c) ← runShimHops ((appShimRegistry 0).get_response_shim "/pets") [] y
      Except.ok (z, l + 1, c + 1)) = _
    rw [hs2]
    rfl
  have hrun : runShimHops ((appShimRegistry 0).get_response_shim "/pets")
      [(apiVersion31, apiVersion30), (apiVersion30, apiVersion20)]
      (.vModel .petV3_1
        [("id", .vStr "pet-1"), ("name", .vStr "Fluffy"), ("species", .vStr "dog"),
         ("age_months", .vInt 36), ("birth_date", .vNull), ("size", .vStr "medium"),
         ("tags", .vList []), ("health_status", .vStr "good")])
      = .ok (.vModel .petV2
          [("id", .vStr "pet-1"), ("name", .vStr "Fluffy"), ("species", .vStr "dog"),
           ("age", .vInt 3), ("birth_date", .vNull)], 2, 2) := by
    change (do
      let y ← shim_pet_response_v3_1_to_v3 (.vModel .petV3_1
        [("id", .vStr "pet-1"), ("name", .vStr "Fluffy"), ("species", .vStr "dog"),
         ("age_months", .vInt 36), ("birth_date", .vNull), ("size", .vStr "medium"),
         ("tags", .vList []), ("health_status", .vStr "good")])
      let (z, l, c) ← runShimHops ((appShimRegistry 0).get_response_shim "/pets")
        [(apiVersion30, apiVersion20)] y
      Except.ok (z, l + 1, c + 1)) = _
    rw [hs1]
    change (do
      let (z, l, c) ← runShimHops ((appShimRegistry 0).get_response_shim "/pets")
        [(apiVersion30, apiVersion20)]
        (.vModel .petV3
          [("id", .vStr "pet-1"), ("name", .vStr "Fluffy"), ("species", .vStr "dog"),
           ("age_months", .vInt 36), ("birth_date", .vNull), ("size", .vStr "medium"),
           ("tags", .vList [])])
      Except.ok (z, l + 1, c + 1)) = _
    rw [hrun1]
    rfl
  change (do
    let (result, _, _) ← runShimHops ((appShimRegistry 0).get_response_shim "/pets")
      [(apiVersion31, apiVersion30), (apiVersion30, apiVersion20)]
      (.vModel .petV3_1
        [("id", .vStr "pet-1"), ("name", .vStr "Fluffy"), ("species", .vStr "dog"),
         ("age_months", .vInt 36), ("birth_date", .vNull), ("size", .vStr "medium"),
         ("tags", .vList []), ("health_status", .vStr "good")])
    Except.ok result) = _
  rw [hrun]
  rfl
